import Mathlib

/-!
Shallow embedding of the JMeter report analyzer core
(`src/utils/table_parsing.py`, `src/comparison/*.py`).

Modelling conventions:
* Python floats are modelled as `ℚ`; sample/error counts as `ℤ` after
  Python's `int(...)` truncation toward zero.
* A raw statistics entry (one value of the `statistics.json` mapping) is an
  association list of numeric fields plus an optional raw-responses list,
  which captures Python's `k in data` / `data.get(k, default)` idioms.
* The `statistics.json` payload is an association list `label → entry`
  (JSON object keys are unique; insertion order is preserved, and a
  synthesized "Total" key is appended at the end as in CPython dicts).
* Python exceptions escaping a function are modelled with `Except String`;
  exceptions swallowed by a `try/except: continue` are modelled by the
  handler's effect (skipping the iteration).
* `round(x, 2)` and `f"{x:.2f}"` are modelled with half-up rounding of the
  exact rational; CPython rounds the underlying binary double half-to-even,
  and no claim below depends on tie behaviour.
* Filesystem access is abstracted: `parse_jmeter_tables` receives a map
  from path to the parsed contents of `statistics.json`, and the
  `dashboard.js` secondary error table (located and regex-extracted in the
  source) is received as its decoded list of items.
-/

namespace JRA

/-- Kernel-computable floor of a rational (agrees with `Int.floor`,
see `qfloor_eq_floor`). -/
def qfloor (q : ℚ) : ℤ := q.num / (q.den : ℤ)

/-- `round(x, 2)` on an exact rational (half-up on ties; see module note). -/
def round2 (q : ℚ) : ℚ := (qfloor (q * 100 + 1/2) : ℤ) / 100

/-- Python `int(x)` on a float/rational: truncation toward zero. -/
def pytrunc (q : ℚ) : ℤ := if 0 ≤ q then qfloor q else -qfloor (-q)

/-- Equality on `Except` results is decidable componentwise. -/
instance {ε α : Type} [DecidableEq ε] [DecidableEq α] : DecidableEq (Except ε α) := fun a b =>
  match a, b with
  | .ok x, .ok y =>
      if h : x = y then isTrue (by rw [h]) else isFalse (fun hh => by cases hh; exact h rfl)
  | .error x, .error y =>
      if h : x = y then isTrue (by rw [h]) else isFalse (fun hh => by cases hh; exact h rfl)
  | .ok _, .error _ => isFalse (fun hh => by cases hh)
  | .error _, .ok _ => isFalse (fun hh => by cases hh)

/-- One record of the `statistics.json` mapping: the numeric fields that are
present, plus the optional `rawResponses` list. -/
structure StatEntry where
  fields : List (String × ℚ)
  rawResponses : Option (List ℚ) := none
deriving Repr, DecidableEq

/-- `k in data` for the numeric fields. -/
def StatEntry.has (e : StatEntry) (k : String) : Bool := (e.fields.lookup k).isSome

/-- `data[k]` for the numeric fields, as an option. -/
def StatEntry.get? (e : StatEntry) (k : String) : Option ℚ := e.fields.lookup k

/-- `float(data.get(k, d))`. -/
def StatEntry.getD (e : StatEntry) (k : String) (d : ℚ) : ℚ := (e.fields.lookup k).getD d

/-- The parsed `statistics.json` object: `label → StatEntry`, in key order. -/
abbrev Payload := List (String × StatEntry)

/-- Accumulator of the aggregation loop in `calculate_total_statistics`. -/
structure TotAcc where
  samples : ℤ
  errors : ℤ
  rt : ℚ
  minRT : Option ℚ
  maxRT : ℚ
  bytes : ℚ
  sentBytes : ℚ
  raws : List ℚ
deriving Repr, DecidableEq

/-- Initial accumulator values (`min_response_time = inf` is `none`). -/
def totInit : TotAcc := ⟨0, 0, 0, none, 0, 0, 0, []⟩

/-- One iteration of the `for label, data in stats_data.items()` loop of
`calculate_total_statistics`; entries whose lowercased label is `"total"`
are skipped. -/
def totStep (a : TotAcc) (p : String × StatEntry) : TotAcc :=
  if p.1.toLower = "total" then a
  else
    let e := p.2
    let samples := pytrunc (e.getD "sampleCount" 0)
    { samples := a.samples + samples
      errors := a.errors + pytrunc (e.getD "errorCount" 0)
      rt := a.rt + e.getD "meanResTime" 0 * samples
      minRT := match a.minRT, e.get? "minResTime" with
        | none, none => none
        | none, some v => some v
        | some m, none => some m
        | some m, some v => some (min m v)
      maxRT := max a.maxRT (e.getD "maxResTime" 0)
      bytes := a.bytes + e.getD "receivedBytes" 0
      sentBytes := a.sentBytes + e.getD "sentBytes" 0
      raws := a.raws ++ (e.rawResponses.getD []) }

/-- Insertion step of a stable insertion sort (used for Python's stable
`sorted` and for sorting rows; see `stableSort`). -/
def insertLe {α : Type} (le : α → α → Bool) (x : α) : List α → List α
  | [] => [x]
  | y :: ys => if le x y then x :: y :: ys else y :: insertLe le x ys

/-- Stable sort by a boolean `le` relation (insertion sort). -/
def stableSort {α : Type} (le : α → α → Bool) (l : List α) : List α :=
  l.foldr (insertLe le) []

/-- `max` of a nonempty generator expression (`max(... for ...)`);
the `[]` case is unreachable at its use sites. -/
def qListMax1 : List ℚ → ℚ
  | [] => 0
  | x :: xs => xs.foldl max x

/-- The percentile block of `calculate_total_statistics` (lines 301-314):
sort the collected raw response times when any exist, indexing at
`int(len * 0.9)` etc.; otherwise fall back to the maximum reported
percentile over ALL entries of the payload. -/
def calcPcts (stats : Payload) (raws : List ℚ) : ℚ × ℚ × ℚ :=
  if raws ≠ [] then
    let s := stableSort (fun x y => decide (x ≤ y)) raws
    (round2 (s.getD (s.length * 9 / 10) 0),
     round2 (s.getD (s.length * 95 / 100) 0),
     round2 (s.getD (s.length * 99 / 100) 0))
  else
    (round2 (qListMax1 (stats.map (fun p => p.2.getD "pct1ResTime" 0))),
     round2 (qListMax1 (stats.map (fun p => p.2.getD "pct2ResTime" 0))),
     round2 (qListMax1 (stats.map (fun p => p.2.getD "pct3ResTime" 0))))

/-- `calculate_total_statistics` (table_parsing.py:262-330).  Returns
`.error` when the unguarded throughput division hits a zero maximum
response time, `.ok none` when the summed sample count is 0, and otherwise
the synthesized aggregate entry (field order as in the source's dict
literal). -/
def calculate_total_statistics (stats : Payload) : Except String (Option StatEntry) :=
  let a := stats.foldl totStep totInit
  if a.samples > 0 then
    let avg := round2 (a.rt / a.samples)
    let errPct := round2 ((a.errors : ℚ) / a.samples * 100)
    if a.maxRT = 0 then .error "ZeroDivisionError"
    else
      let thr := round2 ((a.samples : ℚ) / (a.maxRT / 1000))
      let pcts := calcPcts stats a.raws
      .ok (some
        { fields :=
            [("sampleCount", (a.samples : ℚ)),
             ("errorCount", (a.errors : ℚ)),
             ("errorPct", errPct),
             ("meanResTime", avg),
             ("minResTime", round2 (a.minRT.getD 0)),
             ("maxResTime", round2 a.maxRT),
             ("pct1ResTime", pcts.1),
             ("pct2ResTime", pcts.2.1),
             ("pct3ResTime", pcts.2.2),
             ("throughput", thr),
             ("receivedBytes", round2 a.bytes),
             ("sentBytes", round2 a.sentBytes)],
          rawResponses := none })
  else .ok none

/-- Python truthiness of a statistics entry (an empty dict is falsy). -/
def StatEntry.truthy (e : StatEntry) : Bool :=
  !(e.fields.isEmpty && e.rawResponses.isNone)

/-- Lines 470-474 of `parse_jmeter_tables`: if the payload has no `"Total"`
key (case-sensitive), synthesize one and append it. -/
def augmentTotal (stats : Payload) : Except String Payload :=
  if (stats.lookup "Total").isNone then
    match calculate_total_statistics stats with
    | .error e => .error e
    | .ok none => .ok stats
    | .ok (some t) => .ok (stats ++ [("Total", t)])
  else .ok stats

/-- A DataFrame cell: string, integer, rounded rational, or blank (NaN). -/
inductive Cell where
  | str (s : String)
  | int (z : ℤ)
  | rat (q : ℚ)
  | blank
deriving Repr, DecidableEq

/-- One DataFrame row, as an ordered association of column name to cell. -/
abbrev Row := List (String × Cell)

/-- A pandas DataFrame: its column list and its rows. -/
structure PF where
  cols : List String
  rows : List Row
deriving Repr, DecidableEq

/-- `pd.DataFrame()`: no columns, no rows. -/
def PF.empty : PF := ⟨[], []⟩

/-- `COLUMN_MAPPING` (table_parsing.py:21-36): source field → display name. -/
def COLUMN_MAPPING : List (String × String) :=
  [("Label", "Label"),
   ("sampleCount", "#Samples"),
   ("errorCount", "FAIL"),
   ("errorPct", "Error %"),
   ("meanResTime", "Average"),
   ("minResTime", "Min"),
   ("maxResTime", "Max"),
   ("medianResTime", "Median"),
   ("pct1ResTime", "90th pct"),
   ("pct2ResTime", "95th pct"),
   ("pct3ResTime", "99th pct"),
   ("throughput", "Transactions/s"),
   ("receivedKBytesPerSec", "Received"),
   ("sentKBytesPerSec", "Sent")]

/-- `COLUMN_ORDER` (table_parsing.py:39-54): the canonical 14 columns. -/
def COLUMN_ORDER : List String :=
  ["Label", "#Samples", "FAIL", "Error %", "Average", "Min", "Max", "Median",
   "90th pct", "95th pct", "99th pct", "Transactions/s", "Received", "Sent"]

/-- The cells one `COLUMN_MAPPING` pair contributes to an entry's row
(lines 480-493): the label always, a numeric column only when the source
field is present — ints for the two counts, 2-decimal rounding otherwise. -/
def rowSeg (label : String) (e : StatEntry) (p : String × String) : Row :=
  if p.1 = "Label" then [(p.2, Cell.str label)]
  else
    match e.get? p.1 with
    | some v =>
        [(p.2, if p.1 = "sampleCount" ∨ p.1 = "errorCount" then Cell.int (pytrunc v)
               else Cell.rat (round2 v))]
    | none => []

/-- The per-entry row construction of `parse_jmeter_tables` (lines 478-494):
the `for old_col, new_col in COLUMN_MAPPING.items()` loop. -/
def rowOfEntry (label : String) (e : StatEntry) : Row :=
  COLUMN_MAPPING.foldl (fun row p => row ++ rowSeg label e p) []

/-- Column set of `pd.DataFrame(list_of_dicts)`: keys in order of first
appearance. -/
def dfCols (rows : List Row) : List String :=
  rows.foldl (fun acc r => acc ++ (r.map Prod.fst).filter (fun c => !acc.contains c)) []

/-- `stats_df[COLUMN_ORDER]` (line 499): selecting the canonical columns
raises `KeyError` (here `none`) when one of them occurs in no row;
otherwise each row is reindexed, absent cells becoming blanks (NaN). -/
def reindexCanonical (rows : List Row) : Option (List Row) :=
  if COLUMN_ORDER.all (fun c => (dfCols rows).contains c) then
    some (rows.map (fun r => COLUMN_ORDER.map (fun c => (c, (r.lookup c).getD Cell.blank))))
  else none

/-- `is_http_endpoint` (table_parsing.py:332-334). -/
def is_http_endpoint (label : String) : Bool :=
  label.startsWith "GET " || label.startsWith "POST " || label.startsWith "PUT " ||
  label.startsWith "DELETE " || label.startsWith "PATCH "

/-- `get_sort_key` inside `sort_endpoints` (lines 342-348). -/
def sortKey (label : String) : ℕ × String :=
  if label = "Total" then (0, label)
  else if is_http_endpoint label then (2, label)
  else (1, label)

/-- Comparison of sort keys (Python tuple comparison). -/
def sortKeyLe (l1 l2 : String) : Bool :=
  (sortKey l1).1 < (sortKey l2).1 ||
  ((sortKey l1).1 = (sortKey l2).1 && decide ((sortKey l1).2 ≤ (sortKey l2).2))

/-- The `Label` cell of a row (always a string cell in this pipeline). -/
def rowLabel (r : Row) : String :=
  match r.lookup "Label" with
  | some (Cell.str s) => s
  | _ => ""

/-- `sort_endpoints` (table_parsing.py:336-354). -/
def sort_endpoints (df : PF) : PF :=
  if df.cols.contains "Label" then
    { df with rows := stableSort (fun r1 r2 => sortKeyLe (rowLabel r1) (rowLabel r2)) df.rows }
  else df

/-- The 9 metric names of the aggregate summary, in the order of the
`metrics` dict literal of `parse_jmeter_tables` (lines 510-519). -/
def METRIC_NAMES : List String :=
  ["Average Response Time (ms)", "Median Response Time (ms)", "Min Response Time (ms)",
   "Max Response Time (ms)", "Throughput (req/sec)", "Error %",
   "90th Percentile (ms)", "95th Percentile (ms)", "99th Percentile (ms)"]

/-- The 9 metric values computed from a `Total` entry (lines 521-531);
the median falls back to a `Median` key before defaulting to 0. -/
def metricValues (t : StatEntry) : List ℚ :=
  [round2 (t.getD "meanResTime" 0),
   round2 (match t.get? "medianResTime" with
           | some v => v
           | none => t.getD "Median" 0),
   round2 (t.getD "minResTime" 0),
   round2 (t.getD "maxResTime" 0),
   round2 (t.getD "throughput" 0),
   round2 (t.getD "errorPct" 0),
   round2 (t.getD "pct1ResTime" 0),
   round2 (t.getD "pct2ResTime" 0),
   round2 (t.getD "pct3ResTime" 0)]

/-- The aggregate summary table of one report: `Metric → Value` rows. -/
def metricTableOf (t : StatEntry) : List (String × ℚ) :=
  METRIC_NAMES.zip (metricValues t)

/-- A decoded JSON/JS scalar inside the secondary error table's
positional `data` lists. -/
inductive PyVal where
  | str (s : String)
  | num (q : ℚ)
deriving Repr, DecidableEq

/-- One item of the `top5ErrorsBySamplerTable` payload: its `data` field
when that field exists and is a list (`item.get('data')` plus the
`isinstance(..., list)` check collapse to an `Option`). -/
abbrev ErrItem := Option (List PyVal)

/-- Python dict assignment `m[k] = v`: replace in place or append. -/
def dictInsert (k : String) (v : String) (m : List (String × String)) :
    List (String × String) :=
  if (m.lookup k).isSome then m.map (fun p => if p.1 = k then (k, v) else p)
  else m ++ [(k, v)]

/-- The `error_info` construction of `create_errors_table` (lines 405-417):
for each item whose `data` is a list of length ≥ 5 with a positive error
count at index 2, record the FIRST error description (index 3) under the
label (index 0).  Items whose label or description is not a string are
outside the modelled domain and are skipped. -/
def errInfoOfItems (items : List ErrItem) : List (String × String) :=
  items.foldl
    (fun m it =>
      match it with
      | some data =>
          if data.length ≥ 5 then
            match data.get? 0, data.get? 2, data.get? 3 with
            | some (PyVal.str label), some (PyVal.num c), some (PyVal.str t) =>
                if pytrunc c > 0 then dictInsert label t m else m
            | _, _, _ => m
          else m
      | none => m)
    []

/-- One row of the errors table (dict keys of lines 434-440). -/
structure ErrorRow where
  endpoint : String
  requests : ℤ
  errors : ℤ
  errorText : String
  errorPct : ℚ
deriving Repr, DecidableEq

/-- `create_errors_table` (table_parsing.py:369-450), with the
dashboard.js lookup abstracted into the prebuilt `errorInfo` mapping
(see `errInfoOfItems`).  One row per non-total HTTP-verb-prefixed label
with a positive error count; `None` (here `none`) when no row results. -/
def create_errors_table (stats : Payload) (errorInfo : List (String × String)) :
    Option (List ErrorRow) :=
  let rows := stats.foldl
    (fun acc p =>
      if p.1.toLower ≠ "total" ∧ is_http_endpoint p.1 then
        let ec := pytrunc (p.2.getD "errorCount" 0)
        if ec > 0 then
          let et0 := (errorInfo.lookup p.1).getD "Unknown Error"
          let et := if et0 = "" then "Unknown Error" else et0
          acc ++ [⟨p.1, pytrunc (p.2.getD "sampleCount" 0), ec, et,
                   round2 (p.2.getD "errorPct" 0)⟩]
        else acc
      else acc)
    []
  if rows.isEmpty then none else some rows

/-- `os.path.dirname`: everything before the last `/` (empty if none). -/
def dirName (p : String) : String :=
  let parts := p.splitOn "/"
  String.intercalate "/" (parts.take (parts.length - 1))

/-- `os.path.join(dir, file)` for the cases arising here. -/
def joinPath (d f : String) : String := if d = "" then f else d ++ "/" ++ f

/-- The statistics-payload path resolution of `parse_jmeter_tables`
(lines 457-463). -/
def statPathOf (report_path : String) : String :=
  if report_path.endsWith "statistics.json" then report_path
  else joinPath (dirName report_path) "statistics.json"

/-- The three tables of one parsed report. -/
structure ReportTables where
  endpoint_stats : Option PF
  aggregate_summary : Option (List (String × ℚ))
  errors : Option (List ErrorRow)
deriving Repr, DecidableEq

/-- `parse_jmeter_tables` (table_parsing.py:452-550).  `fs` abstracts the
filesystem (path → parsed `statistics.json` contents, `none` when the file
is absent); `errItems` abstracts the dashboard.js secondary error table.
A missing statistics file yields the all-`none` table set (only logged);
exceptions inside the body (`ZeroDivisionError` in the Total synthesis,
`KeyError` on the canonical column selection) are re-raised (`.error`). -/
def parse_jmeter_tables (fs : String → Option Payload) (errItems : List ErrItem)
    (report_path : String) : Except String ReportTables :=
  match fs (statPathOf report_path) with
  | none => .ok ⟨none, none, none⟩
  | some stats0 =>
      match augmentTotal stats0 with
      | .error e => .error e
      | .ok stats =>
          let stats_rows := stats.map (fun p => rowOfEntry p.1 p.2)
          if stats_rows.isEmpty then .ok ⟨none, none, none⟩
          else
            match reindexCanonical stats_rows with
            | none => .error "KeyError"
            | some rows =>
                let df := sort_endpoints ⟨COLUMN_ORDER, rows⟩
                let agg :=
                  match stats.lookup "Total" with
                  | some t => if t.truthy then some (metricTableOf t) else none
                  | none => none
                .ok ⟨some df, agg, create_errors_table stats (errInfoOfItems errItems)⟩

/-- `f"{x:.2f}"` on an exact rational (half-up on ties; see module note). -/
def fmt2 (q : ℚ) : String :=
  let n : ℤ := qfloor (q * 100 + 1/2)
  let a := n.natAbs
  let frac := a % 100
  (if n < 0 then "-" else "") ++ toString (a / 100) ++ "." ++
    (if frac < 10 then "0" ++ toString frac else toString frac)

/-- `list(...)` keeping first occurrences (pandas `unique`, and Python
`not in` accumulation). -/
def uniqueFirst (l : List String) : List String :=
  l.foldl (fun acc x => if acc.contains x then acc else acc ++ [x]) []

/-- Python dict assignment for a `String → ℚ` mapping. -/
def dictInsertQ (k : String) (v : ℚ) (m : List (String × ℚ)) : List (String × ℚ) :=
  if (m.lookup k).isSome then m.map (fun p => if p.1 = k then (k, v) else p)
  else m ++ [(k, v)]

/-- Python dict assignment `row[k] = v` on an output row: an existing key
keeps its position and is overwritten, a new key is appended (CPython dict
semantics). -/
def rowInsert (k : String) (v : Cell) (r : Row) : Row :=
  if (r.lookup k).isSome then r.map (fun p => if p.1 = k then (k, v) else p)
  else r ++ [(k, v)]

/-- `{row['Metric']: row['Value'] for row in df.iterrows()}`
(aggregate_comparison.py:29-32). -/
def buildMetricMap (rows : List (String × ℚ)) : List (String × ℚ) :=
  rows.foldl (fun m r => dictInsertQ r.1 r.2 m) []

/-- The custom metric order of `compare_aggregate_stats`
(aggregate_comparison.py:16-26). -/
def AGG_METRIC_ORDER : List String :=
  ["Average Response Time (ms)", "Error %", "Throughput (req/sec)",
   "Min Response Time (ms)", "Max Response Time (ms)", "Median Response Time (ms)",
   "90th Percentile (ms)", "95th Percentile (ms)", "99th Percentile (ms)"]

/-- `compare_aggregate_stats` (aggregate_comparison.py:6-42).  Mismatched
or empty inputs, or any absent/empty table, yield the empty DataFrame;
otherwise one row per metric of the custom order, one formatted value
column per report, `""` when a report lacks the metric. -/
def compare_aggregate_stats (dfs : List (Option (List (String × ℚ))))
    (names : List String) : PF :=
  if dfs.length = 0 || names.isEmpty || dfs.length ≠ names.length then PF.empty
  else if dfs.any (fun d => d.isNone || (d.getD []).isEmpty) then PF.empty
  else
    let maps := dfs.map (fun d => buildMetricMap (d.getD []))
    let rows := AGG_METRIC_ORDER.map (fun metric =>
      (maps.zip names).foldl (fun row p =>
          rowInsert p.2 (Cell.str (match p.1.lookup metric with
                                   | some v => fmt2 v
                                   | none => "")) row)
        [("Metric", Cell.str metric)])
    ⟨dfCols rows, rows⟩

/-- The metric list of `compare_endpoint_stats`
(endpoint_comparison.py:21-30): source column and display name. -/
def ENDPOINT_METRICS : List (String × String) :=
  [("#Samples", "#Samples"),
   ("Average", "Average Response Time (ms)"),
   ("Error %", "Error %"),
   ("Transactions/s", "Throughput (req/sec)"),
   ("Median", "Median Response Time (ms)"),
   ("90th pct", "90th Percentile (ms)"),
   ("95th pct", "95th Percentile (ms)"),
   ("99th pct", "99th Percentile (ms)")]

/-- `f"{int(v)}"` on a cell; `int(nan)` and `int` of a non-numeric string
raise (`.error`). -/
def cellIntStr : Cell → Except String String
  | Cell.int z => .ok (toString z)
  | Cell.rat q => .ok (toString (pytrunc q))
  | Cell.blank => .error "ValueError"
  | Cell.str _ => .error "ValueError"

/-- `f"{float(v):.2f}"` on a cell; NaN formats as `"nan"`, a non-numeric
string raises. -/
def cellFloatStr : Cell → Except String String
  | Cell.int z => .ok (fmt2 z)
  | Cell.rat q => .ok (fmt2 q)
  | Cell.blank => .ok "nan"
  | Cell.str _ => .error "ValueError"

/-- One cell of the endpoint comparison (endpoint_comparison.py:38-47):
`""` when the label is absent from the report or the metric column is
missing, otherwise the first matching row's formatted value. -/
def epCellStr (df : PF) (label : String) (metricKey : String) : Except String String :=
  if (df.rows.map rowLabel).contains label then
    let v? : Option Cell :=
      if df.cols.contains metricKey then
        some (((df.rows.filter (fun r => rowLabel r = label)).head?.bind
                (fun r => r.lookup metricKey)).getD Cell.blank)
      else none
    match v? with
    | some c => if metricKey = "#Samples" then cellIntStr c else cellFloatStr c
    | none => .ok ""
  else .ok ""

/-- `compare_endpoint_stats` (endpoint_comparison.py:6-50).  Mismatched or
empty inputs, or any absent/empty table, yield the empty DataFrame; else
the label union (first-report order, then first appearance), with one
column per metric and report named `"<metric> (<name>)"`. -/
def compare_endpoint_stats (dfs : List (Option PF)) (names : List String) :
    Except String PF :=
  if dfs.isEmpty || names.isEmpty || dfs.length ≠ names.length then .ok PF.empty
  else if dfs.any (fun d => d.isNone || (d.getD PF.empty).rows.isEmpty) then .ok PF.empty
  else do
    let dfs' := dfs.map (fun d => d.getD PF.empty)
    let labelLists ← dfs'.mapM (fun df =>
      if df.cols.contains "Label" then pure (uniqueFirst (df.rows.map rowLabel))
      else Except.error "KeyError")
    let labels := labelLists.foldl
      (fun acc ls => acc ++ ls.filter (fun l => !acc.contains l)) []
    let rows ← labels.mapM (fun label =>
      ENDPOINT_METRICS.foldlM (fun row m =>
          (dfs'.zip names).foldlM (fun row p => do
            let s ← epCellStr p.1 label m.1
            pure (rowInsert (m.2 ++ " (" ++ p.2 ++ ")") (Cell.str s) row)) row)
        [("Endpoint", Cell.str label)])
    pure (⟨dfCols rows, rows⟩ : PF)

/-- Numeric view of a cell. -/
def cellNum : Cell → Option ℚ
  | Cell.int z => some (z : ℚ)
  | Cell.rat q => some q
  | _ => none

/-- The string values of a column; `none` models the `KeyError` raised
when the column does not exist (notably on `pd.DataFrame()`). -/
def colStrVals (df : PF) (c : String) : Option (List String) :=
  if df.cols.contains c then
    some (df.rows.filterMap (fun r =>
      match r.lookup c with
      | some (Cell.str s) => some s
      | _ => none))
  else none

/-- `errors[errors['Error'] == error]['Count'].iloc[0]`
(error_comparison.py:28-29); `none` models the exception (`KeyError` on
the missing `Count` column) swallowed by the per-error handler. -/
def countOf (errs : PF) (er : String) : Option ℚ :=
  if errs.cols.contains "Count" then
    (errs.rows.filter (fun r => r.lookup "Error" = some (Cell.str er))).head?.bind
      (fun r => (r.lookup "Count").bind cellNum)
  else none

/-- `errors['Total'].iloc[0] if not errors.empty and 'Total' in
errors.columns else 0` (error_comparison.py:32-33). -/
def totalValOf (errs : PF) : ℚ :=
  if !errs.rows.isEmpty && errs.cols.contains "Total" then
    ((errs.rows.head?.bind (fun r => (r.lookup "Total").bind cellNum)).getD 0)
  else 0

/-- The per-error body of `compare_errors` (error_comparison.py:26-55);
`none` when the swallowed exception makes the loop `continue`. -/
def perErrorRow (errs1 errs2 : PF) (ep er : String) : Option Row := do
  let c1 ← if !errs1.rows.isEmpty &&
              ((colStrVals errs1 "Error").getD []).contains er then countOf errs1 er
           else some 0
  let c2 ← if !errs2.rows.isEmpty &&
              ((colStrVals errs2 "Error").getD []).contains er then countOf errs2 er
           else some 0
  let t1 := totalValOf errs1
  let t2 := totalValOf errs2
  let pct1 := if t1 > 0 then c1 / t1 * 100 else 0
  let pct2 := if t2 > 0 then c2 / t2 * 100 else 0
  some [("Endpoint", Cell.str ep), ("Error Description", Cell.str er),
        ("Report 1 Count", Cell.rat c1), ("Report 1 %", Cell.rat pct1),
        ("Report 2 Count", Cell.rat c2), ("Report 2 %", Cell.rat pct2),
        ("Count Difference", Cell.rat (c2 - c1)), ("% Difference", Cell.rat (pct2 - pct1))]

/-- The per-endpoint body of `compare_errors` (error_comparison.py:18-58):
rows present in only one report leave the other side as `pd.DataFrame()`,
whose missing `Error` column raises and makes the loop `continue`
(the `[]` result). -/
def perEndpoint (d1 d2 : PF) (ep : String) (v1 v2 : List String) : List Row :=
  let errs1 : PF := if v1.contains ep then
      ⟨d1.cols, d1.rows.filter (fun r => r.lookup "Endpoint" = some (Cell.str ep))⟩
    else PF.empty
  let errs2 : PF := if v2.contains ep then
      ⟨d2.cols, d2.rows.filter (fun r => r.lookup "Endpoint" = some (Cell.str ep))⟩
    else PF.empty
  match colStrVals errs1 "Error", colStrVals errs2 "Error" with
  | some e1, some e2 =>
      let descs := stableSort (fun a b => decide (a ≤ b)) (uniqueFirst (e1 ++ e2))
      descs.foldl (fun acc er =>
        acc ++ (match perErrorRow errs1 errs2 ep er with
                | some r => [r]
                | none => [])) []
  | _, _ => []

/-- The final `"%"` formatting of `compare_errors`
(error_comparison.py:68-71). -/
def formatPctCols (df : PF) : PF :=
  let pctCols := ["Report 1 %", "Report 2 %", "% Difference"]
  { df with rows := df.rows.map (fun r => r.map (fun p =>
      if pctCols.contains p.1 then
        match p.2 with
        | Cell.rat q => (p.1, Cell.str (fmt2 q ++ "%"))
        | Cell.int z => (p.1, Cell.str (fmt2 z ++ "%"))
        | c => (p.1, c)
      else p)) }

/-- `compare_errors` (error_comparison.py:6-73). -/
def compare_errors (df1 df2 : Option PF) : Except String PF :=
  match df1, df2 with
  | some d1, some d2 =>
      if d1.rows.isEmpty || d2.rows.isEmpty then .ok PF.empty
      else
        match colStrVals d1 "Endpoint", colStrVals d2 "Endpoint" with
        | some v1, some v2 =>
            let endpoints := stableSort (fun a b => decide (a ≤ b)) (uniqueFirst (v1 ++ v2))
            let data := endpoints.foldl (fun acc ep => acc ++ perEndpoint d1 d2 ep v1 v2) []
            if data.isEmpty then .ok PF.empty
            else .ok (formatPctCols ⟨dfCols data, data⟩)
        | _, _ => .error "KeyError"
  | _, _ => .ok PF.empty

/-- `pd.DataFrame(error_rows)` for the errors table of one report
(table_parsing.py:449): the DataFrame handed to `compare_errors`. -/
def errorTableToPF (rows : List ErrorRow) : PF :=
  let rs : List Row := rows.map (fun r =>
    [("Endpoint", Cell.str r.endpoint), ("Request #", Cell.int r.requests),
     ("Error #", Cell.int r.errors), ("Error", Cell.str r.errorText),
     ("Error %", Cell.rat r.errorPct)])
  ⟨dfCols rs, rs⟩

/-- Modelled from the spec: the sort group of a label under the documented
policy — aggregate first, then labels not prefixed by an HTTP verb, then
HTTP-verb-prefixed labels, where HTTP-verb-prefixed means starting with one
of the five literal `"<verb> "` prefixes.  Used only to compare the
documented policy with `sort_endpoints`. -/
def specGroup (l : String) : ℕ :=
  if l = "Total" then 0
  else if l.startsWith "GET " ∨ l.startsWith "POST " ∨ l.startsWith "PUT " ∨
          l.startsWith "DELETE " ∨ l.startsWith "PATCH " then 2
  else 1

/-- The aggregate table a report's parse produces for a given payload
(filesystem abstracted to a single statistics.json file). -/
def parsedAgg (pay : Payload) : Option (List (String × ℚ)) :=
  match parse_jmeter_tables
      (fun p => if p = "r/statistics.json" then some pay else none) [] "r/index.html" with
  | .ok t => t.aggregate_summary
  | .error _ => none

/-- A payload whose single entry has zero samples. -/
def zeroSamplesPay : Payload := [("GET /a", { fields := [("sampleCount", 0)] })]

/-- A payload with positive samples but an all-zero maximum response time. -/
def zeroMaxPay : Payload := [("GET /a", { fields := [("sampleCount", 5), ("maxResTime", 0)] })]

/-- A payload whose entries never carry `medianResTime` (nor does its
synthesized aggregate). -/
def noMedianPay : Payload := [("GET /a", { fields := [("sampleCount", 1), ("maxResTime", 10)] })]

/-- The filesystem containing only `noMedianPay`. -/
def noMedianFs : String → Option Payload :=
  fun p => if p = "report/statistics.json" then some noMedianPay else none

/-- A complete single-endpoint entry used by several concrete payloads. -/
def entryA : StatEntry :=
  { fields := [("sampleCount", 10), ("errorCount", 0), ("errorPct", 0), ("meanResTime", 5),
               ("minResTime", 1), ("maxResTime", 10), ("medianResTime", 4), ("pct1ResTime", 6),
               ("pct2ResTime", 7), ("pct3ResTime", 8), ("throughput", 2),
               ("receivedKBytesPerSec", 1), ("sentKBytesPerSec", 1)] }

/-- An explicit `Total` entry that disagrees with re-synthesis on the mean. -/
def totalInconsistent : StatEntry :=
  { fields := [("sampleCount", 10), ("errorCount", 0), ("errorPct", 0), ("meanResTime", 100),
               ("minResTime", 1), ("maxResTime", 10), ("medianResTime", 50), ("pct1ResTime", 6),
               ("pct2ResTime", 7), ("pct3ResTime", 8), ("throughput", 2)] }

/-- An explicit `Total` entry consistent with re-synthesis on mean, min,
max and error percentage, but carrying a nonzero median. -/
def totalConsistent : StatEntry :=
  { fields := [("sampleCount", 10), ("errorCount", 0), ("errorPct", 0), ("meanResTime", 5),
               ("minResTime", 1), ("maxResTime", 10), ("medianResTime", 50), ("pct1ResTime", 6),
               ("pct2ResTime", 7), ("pct3ResTime", 8), ("throughput", 2)] }

/-- Payloads with and without their explicit `Total` entry. -/
def payInc : Payload := [("GET /a", entryA), ("Total", totalInconsistent)]

/-- `payInc` with the `Total` entry removed. -/
def payIncNoTotal : Payload := [("GET /a", entryA)]

/-- A payload whose explicit `Total` is consistent except for the median. -/
def payCon : Payload := [("GET /a", entryA), ("Total", totalConsistent)]

/-- `payCon` with the `Total` entry removed. -/
def payConNoTotal : Payload := [("GET /a", entryA)]

/-- Report-1 statistics for the error-comparison failing input of the spec:
`("GET /a", "Timeout", count = 5, total = 100)`. -/
def errPay1 : Payload :=
  [("GET /a", { fields := [("sampleCount", 100), ("errorCount", 5), ("errorPct", 5)] })]

/-- Report-2 statistics lacking `"GET /a"` but with error data of its own. -/
def errPay2 : Payload :=
  [("GET /b", { fields := [("sampleCount", 50), ("errorCount", 2), ("errorPct", 4)] })]

/-- A two-endpoint payload with positive samples and response times. -/
def twoEndpointPay : Payload :=
  [("GET /a", { fields := [("sampleCount", 10), ("errorCount", 2), ("meanResTime", 5),
                           ("minResTime", 1), ("maxResTime", 10)] }),
   ("GET /b", { fields := [("sampleCount", 30), ("errorCount", 0), ("meanResTime", 7),
                           ("minResTime", 2), ("maxResTime", 8)] })]

/-- Rows over the canonical columns used to exercise the sorting policy. -/
def sortDemoRows : List Row :=
  [rowOfEntry "GET /b" entryA, rowOfEntry "Zeta" entryA, rowOfEntry "Total" totalConsistent,
   rowOfEntry "Alpha" entryA, rowOfEntry "GET /a" entryA]

/-- Three one-row endpoint tables (for the mismatched-count comparisons). -/
def threeEndpointTables : List (Option PF) :=
  [some ⟨["Label"], [[("Label", Cell.str "x")]]⟩,
   some ⟨["Label"], [[("Label", Cell.str "y")]]⟩,
   some ⟨["Label"], [[("Label", Cell.str "z")]]⟩]

/-- Three one-row aggregate tables (for the mismatched-count comparisons). -/
def threeAggTables : List (Option (List (String × ℚ))) :=
  [some [("Error %", 1)], some [("Error %", 2)], some [("Error %", 3)]]

/-- A one-report aggregate input carrying only the average metric. -/
def oneMetricAgg : List (Option (List (String × ℚ))) :=
  [some [("Average Response Time (ms)", 5)]]

/-- Accumulator step for the optional minimum
(`min_response_time`, starting at infinity), used to state loop facts. -/
def optMinStep (o : Option ℚ) (v : ℚ) : Option ℚ :=
  match o with
  | none => some v
  | some m => some (min m v)

/-- A filesystem holding a single complete-entry payload. -/
def fullEntryFs : String → Option Payload :=
  fun p => if p = "w/statistics.json" then some [("GET /a", entryA)] else none

/-- The tables that parse produces for `fullEntryFs`. -/
def fullEntryTables : ReportTables :=
  match parse_jmeter_tables fullEntryFs [] "w/index.html" with
  | .ok t => t
  | .error _ => ⟨none, none, none⟩

/-- The endpoint table of `fullEntryTables`. -/
def fullEntryDF : PF := (fullEntryTables.endpoint_stats).getD PF.empty

/-- The aggregate entry `calculate_total_statistics` synthesizes from
`payConNoTotal` (one complete endpoint entry). -/
def synthAEntry : StatEntry :=
  { fields := [("sampleCount", 10), ("errorCount", 0), ("errorPct", 0), ("meanResTime", 5),
               ("minResTime", 1), ("maxResTime", 10), ("pct1ResTime", 6), ("pct2ResTime", 7),
               ("pct3ResTime", 8), ("throughput", 1000), ("receivedBytes", 0),
               ("sentBytes", 0)] }

theorem qfloor_eq_floor (q : ℚ) : qfloor q = ⌊q⌋ := by
  rw [Rat.floor_def, qfloor]

theorem round2_idem (q : ℚ) : round2 (round2 q) = round2 q := by
  unfold round2
  rw [qfloor_eq_floor, qfloor_eq_floor]
  rw [div_mul_cancel₀ _ (by norm_num : (100 : ℚ) ≠ 0)]
  rw [add_comm, Int.floor_add_int]
  norm_num

theorem insertLe_perm {α : Type} (le : α → α → Bool) (x : α) (l : List α) :
    (insertLe le x l).Perm (x :: l) := by
  induction l with
  | nil => exact List.Perm.refl _
  | cons y ys ih =>
      unfold insertLe
      by_cases h : le x y = true
      · rw [if_pos h]
      · rw [if_neg h]
        exact (ih.cons y).trans (List.Perm.swap x y ys)

theorem stableSort_perm {α : Type} (le : α → α → Bool) (l : List α) :
    (stableSort le l).Perm l := by
  induction l with
  | nil => exact List.Perm.refl _
  | cons x xs ih =>
      unfold stableSort at ih ⊢
      simp only [List.foldr_cons]
      exact (insertLe_perm le x _).trans (ih.cons x)

theorem mem_insertLe {α : Type} {le : α → α → Bool} {x a : α} {l : List α} :
    a ∈ insertLe le x l ↔ a = x ∨ a ∈ l := by
  rw [(insertLe_perm le x l).mem_iff, List.mem_cons]

theorem insertLe_pairwise {α : Type} (le : α → α → Bool)
    (htot : ∀ a b, le a b = true ∨ le b a = true)
    (htr : ∀ a b c, le a b = true → le b c = true → le a c = true)
    (x : α) (l : List α) (h : l.Pairwise (fun a b => le a b = true)) :
    (insertLe le x l).Pairwise (fun a b => le a b = true) := by
  induction l with
  | nil => simp [insertLe]
  | cons y ys ih =>
      rw [List.pairwise_cons] at h
      unfold insertLe
      by_cases hxy : le x y = true
      · rw [if_pos hxy]
        refine List.pairwise_cons.mpr ⟨?_, List.pairwise_cons.mpr h⟩
        intro b hb
        rcases List.mem_cons.mp hb with hbe | hb
        · rw [hbe]; exact hxy
        · exact htr x y b hxy (h.1 b hb)
      · rw [if_neg hxy]
        refine List.pairwise_cons.mpr ⟨?_, ih h.2⟩
        intro b hb
        rcases mem_insertLe.mp hb with hbe | hb
        · rw [hbe]
          rcases htot x y with hh | hh
          · exact absurd hh hxy
          · exact hh
        · exact h.1 b hb

theorem stableSort_pairwise {α : Type} (le : α → α → Bool)
    (htot : ∀ a b, le a b = true ∨ le b a = true)
    (htr : ∀ a b c, le a b = true → le b c = true → le a c = true)
    (l : List α) : (stableSort le l).Pairwise (fun a b => le a b = true) := by
  induction l with
  | nil => simp [stableSort]
  | cons x xs ih =>
      unfold stableSort at ih ⊢
      simp only [List.foldr_cons]
      exact insertLe_pairwise le htot htr x _ ih

theorem foldl_append_flatten {α β : Type} (f : α → List β) :
    ∀ (l : List α) (init : List β),
      l.foldl (fun acc x => acc ++ f x) init = init ++ (l.map f).flatten := by
  intro l
  induction l with
  | nil => intro init; simp
  | cons x xs ih => intro init; simp [ih, List.append_assoc]

theorem flatten_map_ite {α β : Type} (c : α → Bool) (g : α → β) :
    ∀ l : List α,
      ((l.map (fun a => if c a then [g a] else [])).flatten) = (l.filter c).map g := by
  intro l
  induction l with
  | nil => rfl
  | cons x xs ih =>
      by_cases h : c x = true
      · simp [h, ih, List.filter_cons]
      · simp only [List.map_cons, List.flatten_cons, List.filter_cons, h]
        simpa using ih

theorem lookup_append {β : Type} (k : String) :
    ∀ (l1 l2 : List (String × β)),
      (l1 ++ l2).lookup k =
        (match l1.lookup k with
         | some v => some v
         | none => l2.lookup k) := by
  intro l1 l2
  induction l1 with
  | nil => simp [List.lookup]
  | cons p l ih =>
      rw [List.cons_append]
      show List.lookup k (p :: (l ++ l2)) = _
      rw [List.lookup]
      by_cases h : (k == p.1) = true
      · simp [List.lookup, h]
      · rw [Bool.not_eq_true] at h
        simp only [List.lookup, h, ih]

theorem lookup_eq_none_of_not_mem_keys {β : Type} {k : String} :
    ∀ {l : List (String × β)}, k ∉ l.map Prod.fst → l.lookup k = none := by
  intro l
  induction l with
  | nil => intro _; rfl
  | cons p t ih =>
      intro h
      simp only [List.map_cons, List.mem_cons] at h
      push_neg at h
      have hne : (k == p.1) = false := by
        simp only [beq_eq_false_iff_ne, ne_eq]
        exact h.1
      rw [List.lookup, hne]
      exact ih h.2

theorem mem_of_lookup_eq_some {β : Type} {k : String} {v : β} :
    ∀ {l : List (String × β)}, l.lookup k = some v → (k, v) ∈ l := by
  intro l
  induction l with
  | nil => intro h; cases h
  | cons p t ih =>
      intro h
      rw [List.lookup] at h
      cases hk : (k == p.1) with
      | true =>
          rw [hk] at h
          have hv : p.2 = v := by injection h
          have hks : k = p.1 := by simpa [beq_iff_eq] using hk
          rw [hks, ← hv]
          exact List.mem_cons_self _ _
      | false =>
          rw [hk] at h
          exact List.mem_cons_of_mem _ (ih h)

theorem le_foldl_max (l : List ℚ) : ∀ a : ℚ, a ≤ l.foldl max a := by
  induction l with
  | nil => intro a; exact le_refl a
  | cons x xs ih =>
      intro a
      exact le_trans (le_max_left a x) (ih (max a x))

theorem mem_le_foldl_max {x : ℚ} {l : List ℚ} (hx : x ∈ l) :
    ∀ a : ℚ, x ≤ l.foldl max a := by
  induction l with
  | nil => cases hx
  | cons y ys ih =>
      intro a
      rcases List.mem_cons.mp hx with rfl | hmem
      · exact le_trans (le_max_right a x) (le_foldl_max ys (max a x))
      · exact ih hmem (max a y)

theorem foldl_max_le {b : ℚ} : ∀ {l : List ℚ} {a : ℚ},
    (∀ x ∈ l, x ≤ b) → a ≤ b → l.foldl max a ≤ b := by
  intro l
  induction l with
  | nil => intro a _ ha; exact ha
  | cons y ys ih =>
      intro a h ha
      exact ih (fun x hx => h x (List.mem_cons_of_mem _ hx))
        (max_le ha (h y (List.mem_cons_self _ _)))

theorem foldl_max_zero_eq_zero_iff (l : List ℚ) :
    l.foldl max 0 = 0 ↔ ¬∃ x ∈ l, 0 < x := by
  constructor
  · rintro h ⟨x, hx, hpos⟩
    have := mem_le_foldl_max hx 0
    rw [h] at this
    exact absurd (lt_of_lt_of_le hpos this) (lt_irrefl 0)
  · intro h
    push_neg at h
    exact le_antisymm (foldl_max_le h (le_refl 0)) (le_foldl_max l 0)

theorem totStep_skip {a : TotAcc} {p : String × StatEntry}
    (h : p.1.toLower = "total") : totStep a p = a := by
  unfold totStep
  rw [if_pos h]

theorem filter_nontotal_cons_skip {p : String × StatEntry} (t : Payload)
    (h : p.1.toLower = "total") :
    List.filter (fun q => q.1.toLower ≠ "total") (p :: t) =
      List.filter (fun q => q.1.toLower ≠ "total") t := by
  simp [List.filter_cons, h]

theorem filter_nontotal_cons_keep {p : String × StatEntry} (t : Payload)
    (h : ¬p.1.toLower = "total") :
    List.filter (fun q => q.1.toLower ≠ "total") (p :: t) =
      p :: List.filter (fun q => q.1.toLower ≠ "total") t := by
  simp [List.filter_cons, h]

theorem foldl_totStep_samples (l : Payload) : ∀ a : TotAcc,
    (l.foldl totStep a).samples =
      a.samples + ((l.filter (fun p => p.1.toLower ≠ "total")).map
        (fun p => pytrunc (p.2.getD "sampleCount" 0))).sum := by
  induction l with
  | nil => intro a; simp
  | cons p t ih =>
      intro a
      by_cases h : p.1.toLower = "total"
      · rw [List.foldl_cons, totStep_skip h, filter_nontotal_cons_skip t h, ih]
      · rw [List.foldl_cons, filter_nontotal_cons_keep t h, ih,
          List.map_cons, List.sum_cons]
        show (totStep a p).samples + _ = _
        unfold totStep
        rw [if_neg h]
        ring

theorem foldl_totStep_errors (l : Payload) : ∀ a : TotAcc,
    (l.foldl totStep a).errors =
      a.errors + ((l.filter (fun p => p.1.toLower ≠ "total")).map
        (fun p => pytrunc (p.2.getD "errorCount" 0))).sum := by
  induction l with
  | nil => intro a; simp
  | cons p t ih =>
      intro a
      by_cases h : p.1.toLower = "total"
      · rw [List.foldl_cons, totStep_skip h, filter_nontotal_cons_skip t h, ih]
      · rw [List.foldl_cons, filter_nontotal_cons_keep t h, ih,
          List.map_cons, List.sum_cons]
        show (totStep a p).errors + _ = _
        unfold totStep
        rw [if_neg h]
        ring

theorem foldl_totStep_rt (l : Payload) : ∀ a : TotAcc,
    (l.foldl totStep a).rt =
      a.rt + ((l.filter (fun p => p.1.toLower ≠ "total")).map
        (fun p => p.2.getD "meanResTime" 0 *
          (pytrunc (p.2.getD "sampleCount" 0) : ℚ))).sum := by
  induction l with
  | nil => intro a; simp
  | cons p t ih =>
      intro a
      by_cases h : p.1.toLower = "total"
      · rw [List.foldl_cons, totStep_skip h, filter_nontotal_cons_skip t h, ih]
      · rw [List.foldl_cons, filter_nontotal_cons_keep t h, ih,
          List.map_cons, List.sum_cons]
        show (totStep a p).rt + _ = _
        unfold totStep
        rw [if_neg h]
        ring

theorem foldl_totStep_maxRT (l : Payload) : ∀ a : TotAcc,
    (l.foldl totStep a).maxRT =
      ((l.filter (fun p => p.1.toLower ≠ "total")).map
        (fun p => p.2.getD "maxResTime" 0)).foldl max a.maxRT := by
  induction l with
  | nil => intro a; simp
  | cons p t ih =>
      intro a
      by_cases h : p.1.toLower = "total"
      · rw [List.foldl_cons, totStep_skip h, filter_nontotal_cons_skip t h, ih]
      · rw [List.foldl_cons, filter_nontotal_cons_keep t h, ih,
          List.map_cons, List.foldl_cons]
        show ((t.filter _).map _).foldl max (totStep a p).maxRT = _
        unfold totStep
        rw [if_neg h]

theorem foldl_totStep_minRT (l : Payload) : ∀ a : TotAcc,
    (l.foldl totStep a).minRT =
      ((l.filter (fun p => p.1.toLower ≠ "total")).filterMap
        (fun p => p.2.get? "minResTime")).foldl optMinStep a.minRT := by
  induction l with
  | nil => intro a; simp
  | cons p t ih =>
      intro a
      by_cases h : p.1.toLower = "total"
      · rw [List.foldl_cons, totStep_skip h, filter_nontotal_cons_skip t h, ih]
      · rw [List.foldl_cons, filter_nontotal_cons_keep t h, ih,
          List.filterMap_cons]
        cases hm : p.2.get? "minResTime" with
        | none =>
            congr 1
            show (totStep a p).minRT = a.minRT
            unfold totStep
            rw [if_neg h]
            cases ha : a.minRT <;> simp [hm, ha]
        | some v =>
            rw [List.foldl_cons]
            congr 1
            show (totStep a p).minRT = optMinStep a.minRT v
            unfold totStep
            rw [if_neg h]
            cases ha : a.minRT <;> simp [hm, optMinStep, ha]

theorem foldl_optMinStep_none_getD (l : List ℚ) :
    ((l.foldl optMinStep none).getD 0) =
      (match l with
       | [] => (0 : ℚ)
       | x :: xs => xs.foldl min x) := by
  cases l with
  | nil => rfl
  | cons x xs =>
      simp only [List.foldl_cons]
      show ((xs.foldl optMinStep (some x)).getD 0) = xs.foldl min x
      induction xs generalizing x with
      | nil => rfl
      | cons y ys ih =>
          simp only [List.foldl_cons]
          exact ih (min x y)

/-- C10: in `calculate_total_statistics`, a zero summed sample count over
the non-aggregate entries yields the absent value (`.ok none`) without the
throughput division, and with a positive summed sample count the unguarded
division `total_samples / (max_response_time / 1000)` raises
`ZeroDivisionError` exactly when no non-aggregate entry has a positive
`maxResTime`. -/
theorem claim_C10_division_guard (stats : Payload) :
    (((stats.filter (fun p => p.1.toLower ≠ "total")).map
        (fun p => pytrunc (p.2.getD "sampleCount" 0))).sum = 0 →
      calculate_total_statistics stats = .ok none) ∧
    (0 < ((stats.filter (fun p => p.1.toLower ≠ "total")).map
        (fun p => pytrunc (p.2.getD "sampleCount" 0))).sum →
      (calculate_total_statistics stats = .error "ZeroDivisionError" ↔
        ¬∃ p ∈ stats.filter (fun p => p.1.toLower ≠ "total"),
          0 < p.2.getD "maxResTime" 0)) := by
  have hs : (stats.foldl totStep totInit).samples =
      ((stats.filter (fun p => p.1.toLower ≠ "total")).map
        (fun p => pytrunc (p.2.getD "sampleCount" 0))).sum := by
    rw [foldl_totStep_samples]
    show (0 : ℤ) + _ = _
    rw [zero_add]
  have hm : (stats.foldl totStep totInit).maxRT =
      ((stats.filter (fun p => p.1.toLower ≠ "total")).map
        (fun p => p.2.getD "maxResTime" 0)).foldl max 0 := by
    rw [foldl_totStep_maxRT]
    rfl
  have hmem : (∃ x ∈ (stats.filter (fun p => p.1.toLower ≠ "total")).map
        (fun p => p.2.getD "maxResTime" 0), 0 < x) ↔
      (∃ p ∈ stats.filter (fun p => p.1.toLower ≠ "total"),
        0 < p.2.getD "maxResTime" 0) := by
    constructor
    · rintro ⟨x, hx, hpos⟩
      rcases List.mem_map.mp hx with ⟨p, hp, rfl⟩
      exact ⟨p, hp, hpos⟩
    · rintro ⟨p, hp, hpos⟩
      exact ⟨p.2.getD "maxResTime" 0, List.mem_map.mpr ⟨p, hp, rfl⟩, hpos⟩
  constructor
  · intro h
    simp only [calculate_total_statistics]
    rw [hs, h]
    norm_num
  · intro h
    simp only [calculate_total_statistics]
    rw [hs, hm, if_pos h]
    by_cases hM : ((stats.filter (fun p => p.1.toLower ≠ "total")).map
        (fun p => p.2.getD "maxResTime" 0)).foldl max 0 = 0
    · rw [if_pos hM]
      simp only [true_iff, eq_self_iff_true]
      rw [← hmem]
      exact (foldl_max_zero_eq_zero_iff _).mp hM
    · rw [if_neg hM]
      constructor
      · intro hcontr
        cases hcontr
      · intro hno
        exact absurd ((foldl_max_zero_eq_zero_iff _).mpr
          (fun hex => hno (hmem.mp hex))) hM

/-- C10 witness: the zero-sample payload returns the absent value, and the
positive-sample, zero-max payload analysis is exercised both ways. -/
theorem claim_C10_witness :
    calculate_total_statistics zeroSamplesPay = .ok none ∧
    calculate_total_statistics zeroMaxPay = .error "ZeroDivisionError" ∧
    calculate_total_statistics twoEndpointPay ≠ .error "ZeroDivisionError" := by
  refine ⟨(claim_C10_division_guard zeroSamplesPay).1 (by with_unfolding_all decide),
    ((claim_C10_division_guard zeroMaxPay).2 (by with_unfolding_all decide)).mpr
      (by with_unfolding_all decide), ?_⟩
  intro h
  have := ((claim_C10_division_guard twoEndpointPay).2 (by with_unfolding_all decide)).mp h
  exact this (by with_unfolding_all decide)

/-- C4 counterexample: the unqualified claim fails at two concrete
payloads with no aggregate label.  With a zero summed sample count no
aggregate entry is synthesized at all (the payload is returned unchanged,
still without a `"Total"` key), and with positive samples but an all-zero
`maxResTime` the synthesis raises `ZeroDivisionError` instead of
producing the claimed entry. -/
theorem claim_C4_counterexample :
    augmentTotal zeroSamplesPay = .ok zeroSamplesPay ∧
    zeroSamplesPay.lookup "Total" = none ∧
    augmentTotal zeroMaxPay = .error "ZeroDivisionError" := by
  with_unfolding_all decide

/-- C4 (amended): for payloads with no aggregate label (no entry whose
lowercased label is `"total"`), a positive summed sample count and at
least one positive `maxResTime`, `parse_jmeter_tables`'s synthesis step
appends a `"Total"` entry whose sample and error counts are the sums over
the entries, whose mean is the sample-count-weighted average of the
means, whose min/max are the min/max across the entries, and whose
throughput is the summed samples divided by the maximum response time in
seconds. -/
theorem claim_C4_synthesis (stats : Payload)
    (h0 : ∀ p ∈ stats, p.1.toLower ≠ "total")
    (h1 : 0 < (stats.map (fun p => pytrunc (p.2.getD "sampleCount" 0))).sum)
    (h2 : ∃ p ∈ stats, 0 < p.2.getD "maxResTime" 0) :
    ∃ t : StatEntry,
      augmentTotal stats = .ok (stats ++ [("Total", t)]) ∧
      t.get? "sampleCount" =
        some (((stats.map (fun p => pytrunc (p.2.getD "sampleCount" 0))).sum : ℤ) : ℚ) ∧
      t.get? "errorCount" =
        some (((stats.map (fun p => pytrunc (p.2.getD "errorCount" 0))).sum : ℤ) : ℚ) ∧
      t.get? "meanResTime" =
        some (round2 ((stats.map (fun p => p.2.getD "meanResTime" 0 *
            (pytrunc (p.2.getD "sampleCount" 0) : ℚ))).sum /
          ((stats.map (fun p => pytrunc (p.2.getD "sampleCount" 0))).sum : ℚ))) ∧
      t.get? "minResTime" =
        some (round2 (match stats.filterMap (fun p => p.2.get? "minResTime") with
                      | [] => (0 : ℚ)
                      | x :: xs => xs.foldl min x)) ∧
      t.get? "maxResTime" =
        some (round2 ((stats.map (fun p => p.2.getD "maxResTime" 0)).foldl max 0)) ∧
      t.get? "throughput" =
        some (round2 ((((stats.map (fun p => pytrunc (p.2.getD "sampleCount" 0))).sum : ℤ) : ℚ) /
          (((stats.map (fun p => p.2.getD "maxResTime" 0)).foldl max 0) / 1000))) := by
  have hf : stats.filter (fun p => p.1.toLower ≠ "total") = stats := by
    rw [List.filter_eq_self]
    intro p hp
    simpa using h0 p hp
  have hs : (stats.foldl totStep totInit).samples =
      (stats.map (fun p => pytrunc (p.2.getD "sampleCount" 0))).sum := by
    rw [foldl_totStep_samples, hf]
    show (0 : ℤ) + _ = _
    rw [zero_add]
  have he : (stats.foldl totStep totInit).errors =
      (stats.map (fun p => pytrunc (p.2.getD "errorCount" 0))).sum := by
    rw [foldl_totStep_errors, hf]
    show (0 : ℤ) + _ = _
    rw [zero_add]
  have hrt : (stats.foldl totStep totInit).rt =
      (stats.map (fun p => p.2.getD "meanResTime" 0 *
        (pytrunc (p.2.getD "sampleCount" 0) : ℚ))).sum := by
    rw [foldl_totStep_rt, hf]
    show (0 : ℚ) + _ = _
    rw [zero_add]
  have hmin : (stats.foldl totStep totInit).minRT.getD 0 =
      (match stats.filterMap (fun p => p.2.get? "minResTime") with
       | [] => (0 : ℚ)
       | x :: xs => xs.foldl min x) := by
    rw [foldl_totStep_minRT, hf]
    exact foldl_optMinStep_none_getD _
  have hm : (stats.foldl totStep totInit).maxRT =
      (stats.map (fun p => p.2.getD "maxResTime" 0)).foldl max 0 := by
    rw [foldl_totStep_maxRT, hf]
    rfl
  have hMpos : (0 : ℚ) < (stats.map (fun p => p.2.getD "maxResTime" 0)).foldl max 0 := by
    rcases h2 with ⟨p, hp, hpos⟩
    exact lt_of_lt_of_le hpos
      (mem_le_foldl_max (List.mem_map.mpr ⟨p, hp, rfl⟩) 0)
  have hMne : (stats.map (fun p => p.2.getD "maxResTime" 0)).foldl max 0 ≠ 0 :=
    ne_of_gt hMpos
  have h1' : 0 < (stats.foldl totStep totInit).samples := by rw [hs]; exact h1
  have hlook : stats.lookup "Total" = none := by
    cases hl : stats.lookup "Total" with
    | none => rfl
    | some e =>
        exact absurd (by with_unfolding_all decide : "Total".toLower = "total")
          (h0 ("Total", e) (mem_of_lookup_eq_some hl))
  have hcalc : calculate_total_statistics stats = .ok (some
      { fields :=
          [("sampleCount", (((stats.foldl totStep totInit).samples : ℤ) : ℚ)),
           ("errorCount", (((stats.foldl totStep totInit).errors : ℤ) : ℚ)),
           ("errorPct", round2 (((stats.foldl totStep totInit).errors : ℚ) /
              ((stats.foldl totStep totInit).samples : ℚ) * 100)),
           ("meanResTime", round2 ((stats.foldl totStep totInit).rt /
              ((stats.foldl totStep totInit).samples : ℚ))),
           ("minResTime", round2 ((stats.foldl totStep totInit).minRT.getD 0)),
           ("maxResTime", round2 (stats.foldl totStep totInit).maxRT),
           ("pct1ResTime", (calcPcts stats (stats.foldl totStep totInit).raws).1),
           ("pct2ResTime", (calcPcts stats (stats.foldl totStep totInit).raws).2.1),
           ("pct3ResTime", (calcPcts stats (stats.foldl totStep totInit).raws).2.2),
           ("throughput", round2 (((stats.foldl totStep totInit).samples : ℚ) /
              ((stats.foldl totStep totInit).maxRT / 1000))),
           ("receivedBytes", round2 (stats.foldl totStep totInit).bytes),
           ("sentBytes", round2 (stats.foldl totStep totInit).sentBytes)],
        rawResponses := none }) := by
    simp only [calculate_total_statistics]
    rw [if_pos h1']
    rw [if_neg (by rw [hm]; exact hMne)]
  simp only [augmentTotal, hlook, Option.isNone_none, if_true]
  rw [hcalc]
  refine ⟨_, rfl, ?_, ?_, ?_, ?_, ?_, ?_⟩
  · simp only [StatEntry.get?, List.lookup, String.reduceBEq]
    rw [hs]
  · simp only [StatEntry.get?, List.lookup, String.reduceBEq]
    rw [he]
  · simp only [StatEntry.get?, List.lookup, String.reduceBEq]
    rw [hrt, hs]
  · simp only [StatEntry.get?, List.lookup, String.reduceBEq]
    rw [hmin]
    rfl
  · simp only [StatEntry.get?, List.lookup, String.reduceBEq]
    rw [hm]
  · simp only [StatEntry.get?, List.lookup, String.reduceBEq]
    rw [hs, hm]

/-- C4 witness: the synthesis theorem applied to a concrete two-endpoint
payload with positive samples and response times. -/
theorem claim_C4_witness :
    (∀ p ∈ twoEndpointPay, p.1.toLower ≠ "total") ∧
    0 < (twoEndpointPay.map (fun p => pytrunc (p.2.getD "sampleCount" 0))).sum ∧
    (∃ p ∈ twoEndpointPay, 0 < p.2.getD "maxResTime" 0) ∧
    ∃ t : StatEntry,
      augmentTotal twoEndpointPay = .ok (twoEndpointPay ++ [("Total", t)]) ∧
      t.get? "sampleCount" =
        some (((twoEndpointPay.map (fun p => pytrunc (p.2.getD "sampleCount" 0))).sum : ℤ) : ℚ) ∧
      t.get? "errorCount" =
        some (((twoEndpointPay.map (fun p => pytrunc (p.2.getD "errorCount" 0))).sum : ℤ) : ℚ) ∧
      t.get? "meanResTime" =
        some (round2 ((twoEndpointPay.map (fun p => p.2.getD "meanResTime" 0 *
            (pytrunc (p.2.getD "sampleCount" 0) : ℚ))).sum /
          ((twoEndpointPay.map (fun p => pytrunc (p.2.getD "sampleCount" 0))).sum : ℚ))) ∧
      t.get? "minResTime" =
        some (round2 (match twoEndpointPay.filterMap (fun p => p.2.get? "minResTime") with
                      | [] => (0 : ℚ)
                      | x :: xs => xs.foldl min x)) ∧
      t.get? "maxResTime" =
        some (round2 ((twoEndpointPay.map (fun p => p.2.getD "maxResTime" 0)).foldl max 0)) ∧
      t.get? "throughput" =
        some (round2 ((((twoEndpointPay.map (fun p => pytrunc (p.2.getD "sampleCount" 0))).sum : ℤ) : ℚ) /
          (((twoEndpointPay.map (fun p => p.2.getD "maxResTime" 0)).foldl max 0) / 1000))) :=
  ⟨by with_unfolding_all decide, by with_unfolding_all decide, by with_unfolding_all decide,
   claim_C4_synthesis twoEndpointPay (by with_unfolding_all decide)
     (by with_unfolding_all decide) (by with_unfolding_all decide)⟩

/-- C1 counterexample: at a concrete report path whose statistics payload
file is absent, `parse_jmeter_tables` does not raise; it silently returns
the table set with all three tables absent. -/
theorem claim_C1_counterexample :
    parse_jmeter_tables (fun _ => none) [] "report/index.html" =
      .ok ⟨none, none, none⟩ := by
  with_unfolding_all decide

/-- C1 (amended): whenever the resolved statistics payload path has no
file, `parse_jmeter_tables` returns the all-absent table set — absence is
only logged, never escalated as an exception. -/
theorem claim_C1_missing_payload (fs : String → Option Payload)
    (errItems : List ErrItem) (path : String)
    (h : fs (statPathOf path) = none) :
    parse_jmeter_tables fs errItems path = .ok ⟨none, none, none⟩ := by
  unfold parse_jmeter_tables
  rw [h]

/-- C1 witness: the amended theorem at the empty filesystem. -/
theorem claim_C1_witness :
    ((fun _ => (none : Option Payload)) (statPathOf "report/index.html") = none) ∧
    parse_jmeter_tables (fun _ => none) [] "report/index.html" =
      .ok ⟨none, none, none⟩ :=
  ⟨rfl, claim_C1_missing_payload (fun _ => none) [] "report/index.html" rfl⟩

/-- C2: the error tables produced by `create_errors_table` carry the
columns Endpoint / Request # / Error # / Error / Error %, while
`compare_errors` reads `Count` and `Total` columns; every per-error lookup
raises a swallowed `KeyError`, so the comparison of the spec's failing
input — report 1 holding ("GET /a", "Timeout", count 5 of 100 samples),
report 2 lacking "GET /a" — returns an empty table instead of the claimed
row with count1 = 5, pct1 = "5.00%", count2 = 0, pct2 = "0.00%",
count difference -5 and percentage difference "-5.00%". -/
theorem claim_C2_schema_mismatch :
    create_errors_table errPay1 [("GET /a", "Timeout")] =
      some [⟨"GET /a", 100, 5, "Timeout", 5⟩] ∧
    create_errors_table errPay2 [("GET /b", "HTTP 500")] =
      some [⟨"GET /b", 50, 2, "HTTP 500", 4⟩] ∧
    compare_errors
      ((create_errors_table errPay1 [("GET /a", "Timeout")]).map errorTableToPF)
      ((create_errors_table errPay2 [("GET /b", "HTTP 500")]).map errorTableToPF) =
      .ok PF.empty := by
  with_unfolding_all decide

/-- C9: both comparison entry points return the empty DataFrame, raising
no exception, whenever the table and name counts differ or either input
list is empty. -/
theorem claim_C9_mismatch_empty (dfs : List (Option PF))
    (aggs : List (Option (List (String × ℚ)))) (names : List String) :
    (dfs.length ≠ names.length ∨ dfs = [] ∨ names = [] →
      compare_endpoint_stats dfs names = .ok PF.empty) ∧
    (aggs.length ≠ names.length ∨ aggs = [] ∨ names = [] →
      compare_aggregate_stats aggs names = PF.empty) := by
  constructor
  · intro h
    unfold compare_endpoint_stats
    rcases h with h | h | h
    · rw [if_pos]
      simp [h]
    · rw [if_pos]
      simp [h]
    · rw [if_pos]
      simp [h]
  · intro h
    unfold compare_aggregate_stats
    rcases h with h | h | h
    · rw [if_pos]
      simp [h]
    · rw [if_pos]
      simp [h]
    · rw [if_pos]
      simp [h]

/-- C9 witness: comparing 3 tables against 2 names returns the empty
result for both comparison kinds. -/
theorem claim_C9_witness :
    threeEndpointTables.length ≠ ["a", "b"].length ∧
    compare_endpoint_stats threeEndpointTables ["a", "b"] = .ok PF.empty ∧
    compare_aggregate_stats threeAggTables ["a", "b"] = PF.empty :=
  ⟨by with_unfolding_all decide,
   (claim_C9_mismatch_empty threeEndpointTables threeAggTables ["a", "b"]).1
     (Or.inl (by with_unfolding_all decide)),
   (claim_C9_mismatch_empty threeEndpointTables threeAggTables ["a", "b"]).2
     (Or.inl (by with_unfolding_all decide))⟩

theorem sortKeyLe_iff (l1 l2 : String) :
    sortKeyLe l1 l2 = true ↔
      ((sortKey l1).1 < (sortKey l2).1 ∨
        ((sortKey l1).1 = (sortKey l2).1 ∧ (sortKey l1).2 ≤ (sortKey l2).2)) := by
  simp [sortKeyLe]

theorem sortKeyLe_total (l1 l2 : String) :
    sortKeyLe l1 l2 = true ∨ sortKeyLe l2 l1 = true := by
  rw [sortKeyLe_iff, sortKeyLe_iff]
  rcases lt_trichotomy (sortKey l1).1 (sortKey l2).1 with h | h | h
  · exact Or.inl (Or.inl h)
  · rcases le_total (sortKey l1).2 (sortKey l2).2 with hs | hs
    · exact Or.inl (Or.inr ⟨h, hs⟩)
    · exact Or.inr (Or.inr ⟨h.symm, hs⟩)
  · exact Or.inr (Or.inl h)

theorem sortKeyLe_trans (l1 l2 l3 : String)
    (h12 : sortKeyLe l1 l2 = true) (h23 : sortKeyLe l2 l3 = true) :
    sortKeyLe l1 l3 = true := by
  rw [sortKeyLe_iff] at h12 h23 ⊢
  rcases h12 with h12 | ⟨he12, hs12⟩
  · rcases h23 with h23 | ⟨he23, hs23⟩
    · exact Or.inl (lt_trans h12 h23)
    · exact Or.inl (he23 ▸ h12)
  · rcases h23 with h23 | ⟨he23, hs23⟩
    · exact Or.inl (he12 ▸ h23)
    · exact Or.inr ⟨he12.trans he23, le_trans hs12 hs23⟩

theorem sortKey_fst_eq_specGroup (l : String) : (sortKey l).1 = specGroup l := by
  unfold sortKey specGroup is_http_endpoint
  by_cases h : l = "Total"
  · simp [h]
  · by_cases hb : (l.startsWith "GET " || l.startsWith "POST " || l.startsWith "PUT " ||
        l.startsWith "DELETE " || l.startsWith "PATCH ") = true
    · have hb' : l.startsWith "GET " = true ∨ l.startsWith "POST " = true ∨
          l.startsWith "PUT " = true ∨ l.startsWith "DELETE " = true ∨
          l.startsWith "PATCH " = true := by
        simpa [Bool.or_eq_true, or_assoc] using hb
      simp [h, hb, hb']
    · have hb' : ¬(l.startsWith "GET " = true ∨ l.startsWith "POST " = true ∨
          l.startsWith "PUT " = true ∨ l.startsWith "DELETE " = true ∨
          l.startsWith "PATCH " = true) := by
        simpa [Bool.or_eq_true, or_assoc] using hb
      simp [h, hb, hb']

theorem sortKey_snd (l : String) : (sortKey l).2 = l := by
  unfold sortKey
  split_ifs <;> rfl

theorem sortKeyLe_imp_spec (l1 l2 : String) (h : sortKeyLe l1 l2 = true) :
    specGroup l1 < specGroup l2 ∨ (specGroup l1 = specGroup l2 ∧ l1 ≤ l2) := by
  rw [sortKeyLe_iff] at h
  rw [← sortKey_fst_eq_specGroup, ← sortKey_fst_eq_specGroup]
  rw [sortKey_snd, sortKey_snd] at h
  exact h

theorem sortKey_fst_eq_zero {l : String} (h : (sortKey l).1 = 0) : l = "Total" := by
  by_cases ht : l = "Total"
  · exact ht
  · exfalso
    unfold sortKey at h
    rw [if_neg ht] at h
    by_cases hh : is_http_endpoint l = true
    · rw [if_pos hh] at h
      exact two_ne_zero h
    · rw [if_neg hh] at h
      exact one_ne_zero h

theorem sortKeyLe_to_total {l : String} (h : sortKeyLe l "Total" = true) :
    l = "Total" := by
  rw [sortKeyLe_iff] at h
  have hz : (sortKey "Total").1 = 0 := rfl
  rcases h with h | ⟨he, _⟩
  · rw [hz] at h
    exact absurd h (Nat.not_lt_zero _)
  · exact sortKey_fst_eq_zero (he.trans hz)

/-- C6: `sort_endpoints` permutes the rows into the documented order: the
aggregate row (label `"Total"`) first, then labels not prefixed by an HTTP
verb, then HTTP-verb-prefixed labels (one of the five literal `"<verb> "`
prefixes), each group alphabetically; whenever a `"Total"` row is present
it ends up at index 0. -/
theorem claim_C6_sort_order (cols : List String) (rows : List Row)
    (h : cols.contains "Label" = true) :
    ((sort_endpoints ⟨cols, rows⟩).rows).Perm rows ∧
    (((sort_endpoints ⟨cols, rows⟩).rows).map rowLabel).Pairwise
      (fun l1 l2 => specGroup l1 < specGroup l2 ∨
        (specGroup l1 = specGroup l2 ∧ l1 ≤ l2)) ∧
    ("Total" ∈ rows.map rowLabel →
      ((sort_endpoints ⟨cols, rows⟩).rows).head?.map rowLabel = some "Total") := by
  have hsort : (sort_endpoints ⟨cols, rows⟩).rows =
      stableSort (fun r1 r2 => sortKeyLe (rowLabel r1) (rowLabel r2)) rows := by
    unfold sort_endpoints
    rw [if_pos h]
  rw [hsort]
  have hperm := stableSort_perm
    (fun r1 r2 => sortKeyLe (rowLabel r1) (rowLabel r2)) rows
  have hpair := stableSort_pairwise
    (fun r1 r2 => sortKeyLe (rowLabel r1) (rowLabel r2))
    (fun a b => sortKeyLe_total (rowLabel a) (rowLabel b))
    (fun a b c hab hbc => sortKeyLe_trans _ _ _ hab hbc) rows
  refine ⟨hperm, ?_, ?_⟩
  · rw [List.pairwise_map]
    exact hpair.imp (fun hab => sortKeyLe_imp_spec _ _ hab)
  · intro hT
    rcases List.mem_map.mp hT with ⟨r0, hr0, hlab⟩
    have hr0' : r0 ∈ stableSort (fun r1 r2 => sortKeyLe (rowLabel r1) (rowLabel r2)) rows :=
      hperm.mem_iff.mpr hr0
    cases hsl : stableSort (fun r1 r2 => sortKeyLe (rowLabel r1) (rowLabel r2)) rows with
    | nil => rw [hsl] at hr0'; cases hr0'
    | cons rh rt =>
        rw [hsl] at hr0' hpair
        rcases List.mem_cons.mp hr0' with hre | hrt
        · rw [← hre]
          simp [hlab]
        · have hle := (List.pairwise_cons.mp hpair).1 r0 hrt
          rw [hlab] at hle
          simp [sortKeyLe_to_total hle]

/-- C6 witness: the sorting theorem on concrete canonical-column rows
containing a `"Total"` row. -/
theorem claim_C6_witness :
    COLUMN_ORDER.contains "Label" = true ∧
    "Total" ∈ sortDemoRows.map rowLabel ∧
    ((sort_endpoints ⟨COLUMN_ORDER, sortDemoRows⟩).rows).head?.map rowLabel =
      some "Total" :=
  ⟨by with_unfolding_all decide, by with_unfolding_all decide,
   (claim_C6_sort_order COLUMN_ORDER sortDemoRows
     (by with_unfolding_all decide)).2.2 (by with_unfolding_all decide)⟩

theorem errText_eq (o : Option String) :
    (if (o.getD "Unknown Error") = "" then "Unknown Error" else o.getD "Unknown Error") =
      (match o with
       | none => "Unknown Error"
       | some t => if t = "" then "Unknown Error" else t) := by
  cases o with
  | none => simp
  | some t => simp

theorem create_errors_rows (errorInfo : List (String × String)) :
    ∀ (stats : Payload) (acc : List ErrorRow),
      stats.foldl
        (fun acc p =>
          if p.1.toLower ≠ "total" ∧ is_http_endpoint p.1 then
            let ec := pytrunc (p.2.getD "errorCount" 0)
            if ec > 0 then
              let et0 := (errorInfo.lookup p.1).getD "Unknown Error"
              let et := if et0 = "" then "Unknown Error" else et0
              acc ++ [⟨p.1, pytrunc (p.2.getD "sampleCount" 0), ec, et,
                       round2 (p.2.getD "errorPct" 0)⟩]
            else acc
          else acc)
        acc =
      acc ++ (stats.filter (fun p => p.1.toLower ≠ "total" ∧ is_http_endpoint p.1 ∧
          0 < pytrunc (p.2.getD "errorCount" 0))).map
        (fun p => ErrorRow.mk p.1 (pytrunc (p.2.getD "sampleCount" 0))
          (pytrunc (p.2.getD "errorCount" 0))
          (match errorInfo.lookup p.1 with
           | none => "Unknown Error"
           | some t => if t = "" then "Unknown Error" else t)
          (round2 (p.2.getD "errorPct" 0))) := by
  intro stats
  induction stats with
  | nil => intro acc; simp
  | cons p t ih =>
      intro acc
      rw [List.foldl_cons, List.filter_cons]
      by_cases hA : p.1.toLower ≠ "total" ∧ is_http_endpoint p.1
      · by_cases hB : 0 < pytrunc (p.2.getD "errorCount" 0)
        · have hc : (decide (p.1.toLower ≠ "total" ∧ is_http_endpoint p.1 = true ∧
              0 < pytrunc (p.2.getD "errorCount" 0))) = true := by
            simp only [decide_eq_true_eq]
            exact ⟨hA.1, hA.2, hB⟩
          simp only [hc, if_true, List.map_cons]
          show List.foldl _ (if p.1.toLower ≠ "total" ∧ is_http_endpoint p.1 then _ else _) t = _
          rw [if_pos hA, if_pos hB, ih]
          rw [← errText_eq (errorInfo.lookup p.1)]
          rw [List.append_assoc]
          rfl
        · have hc : (decide (p.1.toLower ≠ "total" ∧ is_http_endpoint p.1 = true ∧
              0 < pytrunc (p.2.getD "errorCount" 0))) = false := by
            simp only [decide_eq_false_iff_not]
            intro hcontr
            exact hB hcontr.2.2
          simp only [hc, if_false, Bool.false_eq_true]
          show List.foldl _ (if p.1.toLower ≠ "total" ∧ is_http_endpoint p.1 then _ else _) t = _
          rw [if_pos hA, if_neg hB, ih]
      · have hc : (decide (p.1.toLower ≠ "total" ∧ is_http_endpoint p.1 = true ∧
            0 < pytrunc (p.2.getD "errorCount" 0))) = false := by
          simp only [decide_eq_false_iff_not]
          intro hcontr
          exact hA ⟨hcontr.1, hcontr.2.1⟩
        simp only [hc, if_false, Bool.false_eq_true]
        show List.foldl _ (if p.1.toLower ≠ "total" ∧ is_http_endpoint p.1 then _ else _) t = _
        rw [if_neg hA, ih]

/-- C8: `create_errors_table` produces exactly one row per
HTTP-verb-prefixed, non-aggregate label with a positive error count, in
payload order; each row carries that label's description from the
secondary top-errors mapping with the `"Unknown Error"` sentinel
substituted when the mapping has no entry or an empty string; the result
is the absent value precisely when no such label exists. -/
theorem claim_C8_error_rows (stats : Payload) (errorInfo : List (String × String)) :
    create_errors_table stats errorInfo =
      (if ((stats.filter (fun p => p.1.toLower ≠ "total" ∧ is_http_endpoint p.1 ∧
            0 < pytrunc (p.2.getD "errorCount" 0))).map
          (fun p => ErrorRow.mk p.1 (pytrunc (p.2.getD "sampleCount" 0))
            (pytrunc (p.2.getD "errorCount" 0))
            (match errorInfo.lookup p.1 with
             | none => "Unknown Error"
             | some t => if t = "" then "Unknown Error" else t)
            (round2 (p.2.getD "errorPct" 0)))) = [] then none
       else some ((stats.filter (fun p => p.1.toLower ≠ "total" ∧ is_http_endpoint p.1 ∧
            0 < pytrunc (p.2.getD "errorCount" 0))).map
          (fun p => ErrorRow.mk p.1 (pytrunc (p.2.getD "sampleCount" 0))
            (pytrunc (p.2.getD "errorCount" 0))
            (match errorInfo.lookup p.1 with
             | none => "Unknown Error"
             | some t => if t = "" then "Unknown Error" else t)
            (round2 (p.2.getD "errorPct" 0))))) := by
  unfold create_errors_table
  rw [create_errors_rows errorInfo stats []]
  rw [List.nil_append]
  by_cases h : ((stats.filter (fun p => p.1.toLower ≠ "total" ∧ is_http_endpoint p.1 ∧
      0 < pytrunc (p.2.getD "errorCount" 0))).map
    (fun p => ErrorRow.mk p.1 (pytrunc (p.2.getD "sampleCount" 0))
      (pytrunc (p.2.getD "errorCount" 0))
      (match errorInfo.lookup p.1 with
       | none => "Unknown Error"
       | some t => if t = "" then "Unknown Error" else t)
      (round2 (p.2.getD "errorPct" 0)))) = []
  · rw [if_pos h, if_pos]
    rw [h]
    rfl
  · rw [if_neg h, if_neg]
    intro hcontr
    exact h (List.isEmpty_iff.mp hcontr)

theorem dfCols_step_const (ks : List String) :
    ∀ rows : List Row, (∀ r ∈ rows, r.map Prod.fst = ks) →
      rows.foldl (fun acc r => acc ++ (r.map Prod.fst).filter (fun c => !acc.contains c)) ks =
        ks := by
  intro rows
  induction rows with
  | nil => intro _; rfl
  | cons r t ih =>
      intro h
      simp only [List.foldl_cons]
      rw [h r (List.mem_cons_self r t)]
      have h1 : ks.filter (fun c => !ks.contains c) = [] := by
        rw [List.filter_eq_nil_iff]
        intro a ha
        simp [ha]
      rw [h1, List.append_nil]
      exact ih (fun r' hr' => h r' (List.mem_cons_of_mem _ hr'))

theorem dfCols_uniform (ks : List String) (rows : List Row)
    (h : ∀ r ∈ rows, r.map Prod.fst = ks) (hne : rows ≠ []) : dfCols rows = ks := by
  cases rows with
  | nil => exact absurd rfl hne
  | cons r t =>
      unfold dfCols
      simp only [List.foldl_cons]
      rw [h r (List.mem_cons_self r t)]
      have h0 : List.filter (fun c => !(List.contains ([] : List String) c)) ks = ks := by
        rw [List.filter_eq_self]
        intro a _
        rfl
      rw [List.nil_append, h0]
      exact dfCols_step_const ks t (fun r' hr' => h r' (List.mem_cons_of_mem _ hr'))

/-- C7 counterexample: at a one-report input carrying only the average
metric, the metric column of `compare_aggregate_stats` is the custom order
(Average, Error %, Throughput, Min, Max, Median, p90, p95, p99), not the
canonical 9-metric order of the per-report aggregate tables. -/
theorem claim_C7_counterexample :
    (compare_aggregate_stats oneMetricAgg ["v1"]).rows.map
        (fun r => r.lookup "Metric") =
      AGG_METRIC_ORDER.map (fun m => some (Cell.str m)) ∧
    (compare_aggregate_stats oneMetricAgg ["v1"]).rows.map
        (fun r => r.lookup "Metric") ≠
      METRIC_NAMES.map (fun m => some (Cell.str m)) := by
  with_unfolding_all decide

theorem foldl_rowInsert_fresh {α : Type} (f : α → String) (g : α → Cell) :
    ∀ (l : List α) (row : Row),
      (∀ a ∈ l, f a ∉ row.map Prod.fst) →
      (l.map f).Nodup →
      l.foldl (fun r a => rowInsert (f a) (g a) r) row =
        row ++ l.map (fun a => (f a, g a)) := by
  intro l
  induction l with
  | nil => intro row _ _; simp
  | cons a t ih =>
      intro row hfresh hnd
      rw [List.map_cons, List.nodup_cons] at hnd
      rw [List.foldl_cons]
      have hlook : row.lookup (f a) = none :=
        lookup_eq_none_of_not_mem_keys (hfresh a (List.mem_cons_self a t))
      have hstep : rowInsert (f a) (g a) row = row ++ [(f a, g a)] := by
        simp [rowInsert, hlook]
      have hfresh' : ∀ b ∈ t, f b ∉ (row ++ [(f a, g a)]).map Prod.fst := by
        intro b hb hmem
        rw [List.map_append] at hmem
        rcases List.mem_append.mp hmem with h1 | h2
        · exact hfresh b (List.mem_cons_of_mem _ hb) h1
        · have hfb : f b = f a := by simpa using h2
          exact hnd.1 (hfb ▸ List.mem_map.mpr ⟨b, hb, rfl⟩)
      rw [hstep, ih (row ++ [(f a, g a)]) hfresh' hnd.2]
      rw [List.append_assoc, List.singleton_append, List.map_cons]

/-- C7 (amended): for accepted inputs — matching nonzero counts, no
absent/empty table, and the sanity conditions that the report names are
distinct and none is `"Metric"` (otherwise the Python row dict overwrites
colliding keys and columns collapse) — the comparison has exactly the 9
fixed metrics as rows, in the custom order Average, Error %, Throughput,
Min, Max, Median, p90, p95, p99 rather than the canonical order, one
value column per report, and an empty-string cell wherever a report lacks
that metric. -/
theorem claim_C7_aggregate_layout (dfs : List (Option (List (String × ℚ))))
    (names : List String) (hlen : dfs.length = names.length) (hne : dfs ≠ [])
    (hall : ∀ d ∈ dfs, d.isSome = true ∧ (d.getD []) ≠ [])
    (hnd : names.Nodup) (hmn : "Metric" ∉ names) :
    compare_aggregate_stats dfs names =
      ⟨"Metric" :: names,
       AGG_METRIC_ORDER.map (fun metric =>
         ("Metric", Cell.str metric) ::
           ((dfs.map (fun d => buildMetricMap (d.getD []))).zip names).map (fun p =>
             (p.2, Cell.str (match p.1.lookup metric with
                             | some v => fmt2 v
                             | none => ""))))⟩ ∧
    (compare_aggregate_stats dfs names).rows.map (fun r => r.lookup "Metric") =
      AGG_METRIC_ORDER.map (fun m => some (Cell.str m)) ∧
    AGG_METRIC_ORDER ≠ METRIC_NAMES := by
  have hdne : dfs.length ≠ 0 := by
    intro hz
    exact hne (List.length_eq_zero.mp hz)
  have hnne : names.isEmpty = false := by
    rw [List.isEmpty_eq_false]
    intro hh
    rw [hh] at hlen
    exact hdne hlen
  have hlen' : names.length ≤ (dfs.map (fun d => buildMetricMap (d.getD []))).length := by
    rw [List.length_map, hlen]
  have hsnd : ((dfs.map (fun d => buildMetricMap (d.getD []))).zip names).map
      (fun p => p.2) = names := List.map_snd_zip _ _ hlen'
  have hrow_eq : ∀ metric : String,
      ((dfs.map (fun d => buildMetricMap (d.getD []))).zip names).foldl (fun row p =>
          rowInsert p.2 (Cell.str (match p.1.lookup metric with
                                   | some v => fmt2 v
                                   | none => "")) row)
        [("Metric", Cell.str metric)] =
      ("Metric", Cell.str metric) ::
        ((dfs.map (fun d => buildMetricMap (d.getD []))).zip names).map (fun p =>
          (p.2, Cell.str (match p.1.lookup metric with
                          | some v => fmt2 v
                          | none => ""))) := by
    intro metric
    have hfresh : ∀ a ∈ (dfs.map (fun d => buildMetricMap (d.getD []))).zip names,
        a.2 ∉ ([("Metric", Cell.str metric)] : Row).map Prod.fst := by
      rintro ⟨m, nm⟩ ha hmem
      simp only [List.map_cons, List.map_nil, List.mem_singleton] at hmem
      exact hmn (hmem ▸ (List.of_mem_zip ha).2)
    have hnodup : (((dfs.map (fun d => buildMetricMap (d.getD []))).zip names).map
        (fun p => p.2)).Nodup := by
      rw [hsnd]
      exact hnd
    have happ := foldl_rowInsert_fresh
      (fun p : List (String × ℚ) × String => p.2)
      (fun p => Cell.str (match p.1.lookup metric with
                          | some v => fmt2 v
                          | none => ""))
      ((dfs.map (fun d => buildMetricMap (d.getD []))).zip names)
      [("Metric", Cell.str metric)] hfresh hnodup
    exact happ.trans (by rw [List.singleton_append])
  have hmain0 : compare_aggregate_stats dfs names =
      ⟨dfCols (AGG_METRIC_ORDER.map (fun metric =>
         ((dfs.map (fun d => buildMetricMap (d.getD []))).zip names).foldl (fun row p =>
             rowInsert p.2 (Cell.str (match p.1.lookup metric with
                                      | some v => fmt2 v
                                      | none => "")) row)
           [("Metric", Cell.str metric)])),
       AGG_METRIC_ORDER.map (fun metric =>
         ((dfs.map (fun d => buildMetricMap (d.getD []))).zip names).foldl (fun row p =>
             rowInsert p.2 (Cell.str (match p.1.lookup metric with
                                      | some v => fmt2 v
                                      | none => "")) row)
           [("Metric", Cell.str metric)])⟩ := by
    unfold compare_aggregate_stats
    rw [if_neg, if_neg]
    · intro hc
      rcases List.any_eq_true.mp hc with ⟨d, hd, hdc⟩
      rcases hall d hd with ⟨hs, hne'⟩
      rcases Bool.or_eq_true_iff.mp hdc with hcase | hcase
      · rw [Option.isNone_iff_eq_none] at hcase
        rw [hcase] at hs
        cases hs
      · exact hne' (List.isEmpty_iff.mp hcase)
    · intro hc
      rcases Bool.or_eq_true_iff.mp hc with hcase | hcase
      · rcases Bool.or_eq_true_iff.mp hcase with hz | hz
        · exact hdne (of_decide_eq_true hz)
        · rw [hnne] at hz
          cases hz
      · exact (of_decide_eq_true hcase) hlen
  have hrows : AGG_METRIC_ORDER.map (fun metric =>
      ((dfs.map (fun d => buildMetricMap (d.getD []))).zip names).foldl (fun row p =>
          rowInsert p.2 (Cell.str (match p.1.lookup metric with
                                   | some v => fmt2 v
                                   | none => "")) row)
        [("Metric", Cell.str metric)]) =
      AGG_METRIC_ORDER.map (fun metric =>
        ("Metric", Cell.str metric) ::
          ((dfs.map (fun d => buildMetricMap (d.getD []))).zip names).map (fun p =>
            (p.2, Cell.str (match p.1.lookup metric with
                            | some v => fmt2 v
                            | none => "")))) :=
    List.map_congr_left (fun metric _ => hrow_eq metric)
  have hmain : compare_aggregate_stats dfs names =
      ⟨dfCols (AGG_METRIC_ORDER.map (fun metric =>
         ("Metric", Cell.str metric) ::
           ((dfs.map (fun d => buildMetricMap (d.getD []))).zip names).map (fun p =>
             (p.2, Cell.str (match p.1.lookup metric with
                             | some v => fmt2 v
                             | none => ""))))),
       AGG_METRIC_ORDER.map (fun metric =>
         ("Metric", Cell.str metric) ::
           ((dfs.map (fun d => buildMetricMap (d.getD []))).zip names).map (fun p =>
             (p.2, Cell.str (match p.1.lookup metric with
                             | some v => fmt2 v
                             | none => ""))))⟩ := by
    rw [hmain0, hrows]
  have hkeys : ∀ r ∈ AGG_METRIC_ORDER.map (fun metric =>
      ("Metric", Cell.str metric) ::
        ((dfs.map (fun d => buildMetricMap (d.getD []))).zip names).map (fun p =>
          (p.2, Cell.str (match p.1.lookup metric with
                          | some v => fmt2 v
                          | none => "")))), r.map Prod.fst = "Metric" :: names := by
    intro r hr
    rcases List.mem_map.mp hr with ⟨metric, _, rfl⟩
    rw [List.map_cons, List.map_map]
    show "Metric" ::
        ((dfs.map (fun d => buildMetricMap (d.getD []))).zip names).map Prod.snd =
      "Metric" :: names
    rw [List.map_snd_zip _ _ hlen']
  have hcols : dfCols (AGG_METRIC_ORDER.map (fun metric =>
      ("Metric", Cell.str metric) ::
        ((dfs.map (fun d => buildMetricMap (d.getD []))).zip names).map (fun p =>
          (p.2, Cell.str (match p.1.lookup metric with
                          | some v => fmt2 v
                          | none => ""))))) = "Metric" :: names := by
    apply dfCols_uniform _ _ hkeys
    intro hcontr
    have := congrArg List.length hcontr
    simp [AGG_METRIC_ORDER] at this
  refine ⟨?_, ?_, by with_unfolding_all decide⟩
  · rw [hmain, hcols]
  · rw [hmain]
    show (AGG_METRIC_ORDER.map _).map _ = _
    rw [List.map_map]
    apply List.map_congr_left
    intro metric _
    simp [List.lookup]

/-- C7 witness: the layout theorem at a single-report input missing most
metrics, exhibiting the metric column and the blank cells. -/
theorem claim_C7_witness :
    oneMetricAgg.length = ["v1"].length ∧
    (["v1"] : List String).Nodup ∧
    "Metric" ∉ (["v1"] : List String) ∧
    (compare_aggregate_stats oneMetricAgg ["v1"]).rows.map
        (fun r => r.lookup "Metric") =
      AGG_METRIC_ORDER.map (fun m => some (Cell.str m)) :=
  ⟨by with_unfolding_all decide, by with_unfolding_all decide,
   by with_unfolding_all decide,
   (claim_C7_aggregate_layout oneMetricAgg ["v1"] (by with_unfolding_all decide)
     (by with_unfolding_all decide) (by with_unfolding_all decide)
     (by with_unfolding_all decide) (by with_unfolding_all decide)).2.1⟩

theorem rowOfEntry_eq_flatten (label : String) (e : StatEntry) :
    rowOfEntry label e = (COLUMN_MAPPING.map (rowSeg label e)).flatten := by
  rw [rowOfEntry, foldl_append_flatten, List.nil_append]

theorem rowSeg_lookup_ne (label : String) (e : StatEntry) (p : String × String)
    (nc : String) (h : p.2 ≠ nc) : (rowSeg label e p).lookup nc = none := by
  have hb : (nc == p.2) = false := by
    simp only [beq_eq_false_iff_ne, ne_eq]
    exact fun hh => h hh.symm
  unfold rowSeg
  by_cases hp : p.1 = "Label"
  · rw [if_pos hp]
    simp [List.lookup, hb]
  · rw [if_neg hp]
    cases hv : e.get? p.1 with
    | none => rfl
    | some v => simp [List.lookup, hb]

theorem flatten_lookup_none (segf : (String × String) → Row)
    (hne : ∀ p nc, p.2 ≠ nc → (segf p).lookup nc = none) :
    ∀ (mapping : List (String × String)) (nc : String),
      (∀ q ∈ mapping, q.2 ≠ nc) →
      ((mapping.map segf).flatten).lookup nc = none := by
  intro mapping
  induction mapping with
  | nil => intro nc _; rfl
  | cons q rest ih =>
      intro nc h
      rw [List.map_cons, List.flatten_cons, lookup_append,
        hne q nc (h q (List.mem_cons_self q rest))]
      exact ih nc (fun q' hq' => h q' (List.mem_cons_of_mem _ hq'))

theorem flatten_segs_lookup (segf : (String × String) → Row)
    (hne : ∀ p nc, p.2 ≠ nc → (segf p).lookup nc = none) :
    ∀ (mapping : List (String × String)) (nc : String),
      (mapping.map Prod.snd).Nodup →
      ((mapping.map segf).flatten).lookup nc =
        (mapping.find? (fun p => p.2 == nc)).bind (fun p => (segf p).lookup nc) := by
  intro mapping
  induction mapping with
  | nil => intro nc _; rfl
  | cons q rest ih =>
      intro nc hnd
      rw [List.map_cons] at hnd
      have hq2 := (List.nodup_cons.mp hnd).1
      have hrest := (List.nodup_cons.mp hnd).2
      rw [List.map_cons, List.flatten_cons, lookup_append]
      by_cases hk : q.2 = nc
      · have hfind : (q :: rest).find? (fun p => p.2 == nc) = some q := by
          rw [List.find?_cons_of_pos]
          simp [hk]
        rw [hfind, Option.some_bind]
        cases hsl : (segf q).lookup nc with
        | some v => rfl
        | none =>
            show ((rest.map segf).flatten).lookup nc = none
            apply flatten_lookup_none segf hne
            intro q' hq' hcontr
            rw [hk] at hq2
            exact hq2 (hcontr ▸ List.mem_map.mpr ⟨q', hq', rfl⟩)
      · rw [hne q nc hk]
        have hfind : (q :: rest).find? (fun p => p.2 == nc) =
            rest.find? (fun p => p.2 == nc) := by
          rw [List.find?_cons_of_neg]
          simp [hk]
        rw [hfind]
        exact ih nc hrest

theorem find?_key_of_mem :
    ∀ {mapping : List (String × String)} {oc nc : String},
      (mapping.map Prod.snd).Nodup → (oc, nc) ∈ mapping →
      mapping.find? (fun p => p.2 == nc) = some (oc, nc) := by
  intro mapping
  induction mapping with
  | nil => intro oc nc _ hmem; cases hmem
  | cons q rest ih =>
      intro oc nc hnd hmem
      rw [List.map_cons] at hnd
      have hq2 := (List.nodup_cons.mp hnd).1
      have hrest := (List.nodup_cons.mp hnd).2
      rcases List.mem_cons.mp hmem with hqe | hmem'
      · rw [← hqe]
        rw [List.find?_cons_of_pos]
        simp
      · have hk : q.2 ≠ nc := by
          intro hcontr
          exact hq2 (hcontr ▸ List.mem_map.mpr ⟨(oc, nc), hmem', rfl⟩)
        rw [List.find?_cons_of_neg]
        · exact ih hrest hmem'
        · simp [hk]

theorem rowOfEntry_lookup_absent (label : String) (e : StatEntry) (oc nc : String)
    (hmem : (oc, nc) ∈ COLUMN_MAPPING) (hoc : oc ≠ "Label")
    (habs : e.has oc = false) : (rowOfEntry label e).lookup nc = none := by
  rw [rowOfEntry_eq_flatten]
  rw [flatten_segs_lookup (rowSeg label e) (rowSeg_lookup_ne label e) COLUMN_MAPPING nc
    (by with_unfolding_all decide)]
  rw [find?_key_of_mem (by with_unfolding_all decide) hmem]
  show (rowSeg label e (oc, nc)).lookup nc = none
  have hget : e.get? oc = none := by
    unfold StatEntry.has at habs
    unfold StatEntry.get?
    cases hv : e.fields.lookup oc with
    | none => rfl
    | some v => rw [hv] at habs; cases habs
  unfold rowSeg
  rw [if_neg hoc]
  rw [hget]
  rfl

/-- C3 counterexample: a payload whose only entry lacks `medianResTime`
(and whose synthesized aggregate also carries none) makes the canonical
column selection raise `KeyError`: the parse crashes instead of rendering
blanks. -/
theorem claim_C3_counterexample :
    parse_jmeter_tables noMedianFs [] "report/index.html" = .error "KeyError" := by
  with_unfolding_all decide

/-- C3 (amended): whenever `parse_jmeter_tables` succeeds and yields an
endpoint table, that table's columns are exactly the canonical 14 in fixed
order, every row carries exactly those columns, and the rows are a
permutation of one reindexed row per entry of the (aggregate-augmented)
payload — no row is dropped; a source field absent from an entry gives
that entry's row a blank in the corresponding column.  (The original
unconditional never-crash claim fails: a canonical field absent from
every entry raises `KeyError`, see the counterexample.) -/
theorem claim_C3_canonical_columns (fs : String → Option Payload)
    (errItems : List ErrItem) (path : String) (stats0 : Payload)
    (tables : ReportTables) (df : PF)
    (hfs : fs (statPathOf path) = some stats0)
    (hok : parse_jmeter_tables fs errItems path = .ok tables)
    (hdf : tables.endpoint_stats = some df) :
    df.cols = COLUMN_ORDER ∧
    (∀ r ∈ df.rows, r.map Prod.fst = COLUMN_ORDER) ∧
    (∃ stats', augmentTotal stats0 = .ok stats' ∧
      df.rows.Perm (stats'.map (fun p => COLUMN_ORDER.map (fun c =>
        (c, ((rowOfEntry p.1 p.2).lookup c).getD Cell.blank))))) ∧
    (∀ (label : String) (e : StatEntry) (oc nc : String),
      (oc, nc) ∈ COLUMN_MAPPING → oc ≠ "Label" → e.has oc = false →
      (rowOfEntry label e).lookup nc = none) := by
  unfold parse_jmeter_tables at hok
  rw [hfs] at hok
  simp only [] at hok
  cases haug : augmentTotal stats0 with
  | error err =>
      simp only [haug] at hok
      exact Except.noConfusion hok
  | ok stats' =>
      simp only [haug] at hok
      by_cases hemp : (stats'.map (fun p => rowOfEntry p.1 p.2)).isEmpty
      · rw [if_pos hemp] at hok
        injection hok with hok
        rw [← hok] at hdf
        simp at hdf
      · rw [if_neg hemp] at hok
        cases hre : reindexCanonical (stats'.map (fun p => rowOfEntry p.1 p.2)) with
        | none =>
            simp only [hre] at hok
            exact Except.noConfusion hok
        | some rows' =>
            simp only [hre] at hok
            injection hok with hok
            rw [← hok] at hdf
            injection hdf with hdf
            have hrows' : rows' = (stats'.map (fun p => rowOfEntry p.1 p.2)).map
                (fun r => COLUMN_ORDER.map (fun c => (c, (r.lookup c).getD Cell.blank))) := by
              unfold reindexCanonical at hre
              by_cases hall : COLUMN_ORDER.all (fun c => (dfCols
                  (stats'.map (fun p => rowOfEntry p.1 p.2))).contains c)
              · rw [if_pos hall] at hre
                injection hre with hre
                rw [hre]
              · rw [if_neg hall] at hre
                cases hre
            have hdfeq : df = ⟨COLUMN_ORDER,
                stableSort (fun r1 r2 => sortKeyLe (rowLabel r1) (rowLabel r2)) rows'⟩ := by
              rw [← hdf]
              unfold sort_endpoints
              rw [if_pos (by with_unfolding_all decide :
                COLUMN_ORDER.contains "Label" = true)]
            refine ⟨?_, ?_, ?_, ?_⟩
            · rw [hdfeq]
            · intro r hr
              rw [hdfeq] at hr
              have hr' : r ∈ rows' :=
                (stableSort_perm _ rows').mem_iff.mp hr
              rw [hrows'] at hr'
              rcases List.mem_map.mp hr' with ⟨row, _, rfl⟩
              rw [List.map_map]
              have : (Prod.fst ∘ fun c => (c, (row.lookup c).getD Cell.blank)) =
                  fun c => c := rfl
              rw [this, List.map_id']
            · refine ⟨stats', rfl, ?_⟩
              rw [hdfeq]
              have hperm := stableSort_perm
                (fun r1 r2 => sortKeyLe (rowLabel r1) (rowLabel r2)) rows'
              apply hperm.trans
              rw [hrows', List.map_map]
              exact List.Perm.refl _
            · exact fun label e oc nc hmem hoc habs =>
                rowOfEntry_lookup_absent label e oc nc hmem hoc habs

set_option maxRecDepth 8000 in
/-- C3 witness: the amended theorem applied to a complete single-entry
payload, exhibiting the canonical columns of the produced table. -/
theorem claim_C3_witness :
    fullEntryDF.cols = COLUMN_ORDER ∧
    (∀ r ∈ fullEntryDF.rows, r.map Prod.fst = COLUMN_ORDER) :=
  ⟨(claim_C3_canonical_columns fullEntryFs [] "w/index.html" [("GET /a", entryA)]
      fullEntryTables fullEntryDF (by with_unfolding_all decide)
      (by with_unfolding_all decide) (by with_unfolding_all decide)).1,
   (claim_C3_canonical_columns fullEntryFs [] "w/index.html" [("GET /a", entryA)]
      fullEntryTables fullEntryDF (by with_unfolding_all decide)
      (by with_unfolding_all decide) (by with_unfolding_all decide)).2.1⟩

set_option maxRecDepth 8000 in
/-- C5 counterexample: the unqualified round-trip claim fails.  With an
explicit `Total` whose mean disagrees with re-synthesis, the Average rows
differ (100 vs 5); and even with an explicit `Total` consistent on mean,
min, max and error %, the Median rows differ (50 vs 0) because the
synthesized aggregate carries no median — and Median is not among the
exempt throughput/percentile fields. -/
theorem claim_C5_counterexample :
    (parsedAgg payInc).bind (fun t => t.lookup "Average Response Time (ms)") =
      some 100 ∧
    (parsedAgg payIncNoTotal).bind (fun t => t.lookup "Average Response Time (ms)") =
      some 5 ∧
    (parsedAgg payCon).bind (fun t => t.lookup "Median Response Time (ms)") =
      some 50 ∧
    (parsedAgg payConNoTotal).bind (fun t => t.lookup "Median Response Time (ms)") =
      some 0 ∧
    (100 : ℚ) ≠ 5 ∧ (50 : ℚ) ≠ 0 := by
  with_unfolding_all decide

/-- C5 (amended): for a payload whose explicit `Total` entry agrees, after
2-decimal rounding, with the entry re-synthesized from the payload with
`Total` removed on meanResTime, minResTime, maxResTime and errorPct, the
two aggregate tables agree on the Average, Min, Max and Error % rows.
Median must join throughput and the percentiles in the exempt set, since
the synthesized aggregate carries no median (its Median row is 0). -/
theorem claim_C5_roundtrip (stats0 : Payload) (tE tS : StatEntry)
    (_hE : stats0.lookup "Total" = some tE)
    (_hS : calculate_total_statistics (stats0.filter (fun p => p.1 ≠ "Total")) =
      .ok (some tS))
    (hmean : tS.getD "meanResTime" 0 = round2 (tE.getD "meanResTime" 0))
    (hmin : tS.getD "minResTime" 0 = round2 (tE.getD "minResTime" 0))
    (hmax : tS.getD "maxResTime" 0 = round2 (tE.getD "maxResTime" 0))
    (herr : tS.getD "errorPct" 0 = round2 (tE.getD "errorPct" 0)) :
    (metricTableOf tE).lookup "Average Response Time (ms)" =
      (metricTableOf tS).lookup "Average Response Time (ms)" ∧
    (metricTableOf tE).lookup "Min Response Time (ms)" =
      (metricTableOf tS).lookup "Min Response Time (ms)" ∧
    (metricTableOf tE).lookup "Max Response Time (ms)" =
      (metricTableOf tS).lookup "Max Response Time (ms)" ∧
    (metricTableOf tE).lookup "Error %" = (metricTableOf tS).lookup "Error %" := by
  refine ⟨?_, ?_, ?_, ?_⟩
  · simp only [metricTableOf, METRIC_NAMES, metricValues, List.zip, List.zipWith,
      List.lookup, String.reduceBEq]
    rw [hmean, round2_idem]
  · simp only [metricTableOf, METRIC_NAMES, metricValues, List.zip, List.zipWith,
      List.lookup, String.reduceBEq]
    rw [hmin, round2_idem]
  · simp only [metricTableOf, METRIC_NAMES, metricValues, List.zip, List.zipWith,
      List.lookup, String.reduceBEq]
    rw [hmax, round2_idem]
  · simp only [metricTableOf, METRIC_NAMES, metricValues, List.zip, List.zipWith,
      List.lookup, String.reduceBEq]
    rw [herr, round2_idem]

set_option maxRecDepth 8000 in
/-- C5 witness: the round-trip theorem at the consistent concrete payload. -/
theorem claim_C5_witness :
    payCon.lookup "Total" = some totalConsistent ∧
    calculate_total_statistics (payCon.filter (fun p => p.1 ≠ "Total")) =
      .ok (some synthAEntry) ∧
    (metricTableOf totalConsistent).lookup "Average Response Time (ms)" =
      (metricTableOf synthAEntry).lookup "Average Response Time (ms)" ∧
    (metricTableOf totalConsistent).lookup "Error %" =
      (metricTableOf synthAEntry).lookup "Error %" :=
  ⟨by with_unfolding_all decide, by with_unfolding_all decide,
   (claim_C5_roundtrip payCon totalConsistent synthAEntry
     (by with_unfolding_all decide) (by with_unfolding_all decide)
     (by with_unfolding_all decide) (by with_unfolding_all decide)
     (by with_unfolding_all decide) (by with_unfolding_all decide)).1,
   (claim_C5_roundtrip payCon totalConsistent synthAEntry
     (by with_unfolding_all decide) (by with_unfolding_all decide)
     (by with_unfolding_all decide) (by with_unfolding_all decide)
     (by with_unfolding_all decide) (by with_unfolding_all decide)).2.2.2⟩

end JRA
